import Mathlib

/-!
AsyncPing: a shallow embedding of `src/AsyncPing.cpp`.

The C++ class `AsyncPing` runs one ICMP echo session.  Its member functions are
embedded as pure functions from a session state (and the values the platform
supplies: clock readings, the outcome of `pbuf_alloc`, the outcome of the ARP
lookup, an inbound packet) to a new session state together with the list of
calls made to the outside world, in program order.

Machine integers are natural numbers with explicit wrap-around.
-/

/-- Truncation to an unsigned 8-bit value (`u8_t`). -/
def u8 (x : Nat) : Nat := x % 2 ^ 8

/-- Truncation to an unsigned 16-bit value (`u16_t`). -/
def u16 (x : Nat) : Nat := x % 2 ^ 16

/-- Truncation to an unsigned 32-bit value (`u32_t`). -/
def u32 (x : Nat) : Nat := x % 2 ^ 32

/-- Subtraction of two `u32_t` values, as in `sys_now() - ping_sent`. -/
def sub32 (a b : Nat) : Nat := (u32 a + 2 ^ 32 - u32 b) % 2 ^ 32

/-- ICMP type of an echo reply (lwIP `ICMP_ER`). -/
def ICMP_ER : Nat := 0

/-- ICMP type of an echo request (lwIP `ICMP_ECHO`). -/
def ICMP_ECHO : Nat := 8

/-- Size of `struct icmp_echo_hdr`: type, code, chksum, id, seqno. -/
def sizeof_icmp_echo_hdr : Nat := 8

/-- The value of `sizeof(struct icmp_echo_hdr) + PING_DATA_SIZE` after the textual
expansion of `#define PING_DATA_SIZE 64 - 8`. -/
def ping_size : Nat := sizeof_icmp_echo_hdr + 64 - 8

/-- The lwIP byte swap `htons` on the little-endian targets (ESP8266, ESP32). -/
def htons (x : Nat) : Nat := (x % 256) * 256 + (x / 256) % 256

/-- The two bytes of a `u16_t` as stored in memory on a little-endian target. -/
def store16 (x : Nat) : List Nat := [x % 256, (x / 256) % 256]

/-- Sum of the 16-bit words of a buffer, read as the target reads them. -/
def chksum_words : List Nat → Nat
  | [] => 0
  | [b] => b
  | b0 :: b1 :: rest => b0 + 256 * b1 + chksum_words rest

/-- One folding step of the end-around carry. -/
def chksum_fold (x : Nat) : Nat := x / 65536 + x % 65536

/-- The lwIP Internet checksum `inet_chksum`: the one's complement of the folded
sum of the 16-bit words of the first `len` bytes. -/
def inet_chksum (buf : List Nat) (len : Nat) : Nat :=
  65535 - u16 (chksum_fold (chksum_fold (chksum_words (buf.take len))))

/-- The response record `AsyncPingResponse` handed to both callbacks.  `mac` is the
pointer to the cached link address, `none` standing for `NULL`. -/
structure AsyncPingResponse where
  total_sent : Nat
  total_recv : Nat
  total_time : Nat
  size : Nat
  time : Nat
  icmp_seq : Nat
  ttl : Nat
  addr : Nat
  answer : Bool
  timeout : Nat
  mac : Option Nat
deriving DecidableEq, Repr

/-- The static functions a `Ticker` is attached with in this file. -/
inductive Handler where
  | _s_timer
  | _s_timer_recv
deriving DecidableEq, Repr

/-- The two `Ticker` members of the class. -/
inductive TickerId where
  | _timer
  | _timer_recv
deriving DecidableEq, Repr

/-- Calls made to the outside world, in program order.  `attach` records the
period in milliseconds (the `Ticker` takes seconds as a float; every call in
the source passes `1.0`). -/
inductive Effect where
  | raw_new
  | raw_recv
  | raw_bind
  | raw_remove
  | raw_sendto (target : Nat) (packet : List Nat)
  | pbuf_free
  | pbuf_header_restore
  | etharp_find_addr (addr : Nat)
  | detach (t : TickerId)
  | attach (t : TickerId) (ms : Nat) (h : Handler)
  | on_recv (r : AsyncPingResponse)
  | on_sent (r : AsyncPingResponse)
deriving DecidableEq, Repr

/-- Outcome of `pbuf_alloc` in `ping_send`: `NULL`, a buffer that is not one
contiguous segment, or a contiguous buffer. -/
inductive Alloc where
  | null
  | chained
  | contiguous
deriving DecidableEq, Repr

/-- What the platform supplies when a probe is sent or a session is finalised:
the outcome of `pbuf_alloc` and the reading of `sys_now()`. -/
structure SendEnv where
  alloc : Alloc
  now : Nat
deriving DecidableEq, Repr

/-- An inbound packet as `ping_recv` reads it: whether the IP header can be
stripped (`pbuf_header(p, -PBUF_IP_HLEN) == 0`), the TTL of the IP header, the
ICMP type, identifier and sequence fields (the latter two as the 16-bit values
the target reads from memory) and the source address. -/
structure InPacket where
  hdr_ok : Bool
  ttl : Nat
  type : Nat
  id : Nat
  seqno : Nat
  src : Nat
deriving DecidableEq, Repr

/-- The callback type `THandlerFunction`: a function from the response record
to the cancellation request. -/
abbrev THandlerFunction := AsyncPingResponse → Bool

/-- The data members of the class `AsyncPing`.  `ping_pcb` is `true` when the
raw transport handle is held (non-`NULL`); a `Ticker` is `none` when detached
and otherwise holds the handler it fires, repeatedly. -/
structure AsyncPing where
  ping_id : Nat
  ping_pcb : Bool
  _on_recv : Option THandlerFunction
  _on_sent : Option THandlerFunction
  count_down : Nat
  _response : AsyncPingResponse
  ping_target : Nat
  ping_sent : Nat
  ping_start : Nat
  _timer : Option Handler
  _timer_recv : Option Handler

/-- A state after an operation, with the calls the operation made. -/
structure Step where
  state : AsyncPing
  effects : List Effect

/-- A state after an operation that returns a value, with that value. -/
structure Ret (α : Type) where
  ret : α
  state : AsyncPing
  effects : List Effect

namespace AsyncPing

/-- The constructor `AsyncPing::AsyncPing()`.  It sets `ping_id` (from `random`),
`ping_pcb`, both callbacks and `count_down`; the members it does not set
(`r0` for `_response`, and the target and clock marks) are parameters. -/
def fresh (id : Nat) (r0 : AsyncPingResponse) (target sent start : Nat) : AsyncPing :=
  { ping_id := id
    ping_pcb := false
    _on_recv := none
    _on_sent := none
    count_down := 0
    _response := r0
    ping_target := target
    ping_sent := sent
    ping_start := start
    _timer := none
    _timer_recv := none }

/-- The member `AsyncPing::on(mode, fn)` (`on` is reserved in Lean). -/
def set_on (s : AsyncPing) (mode : Bool) (fn : Option THandlerFunction) : AsyncPing :=
  if mode then { s with _on_recv := fn } else { s with _on_sent := fn }

/-- The member `AsyncPing::cancel()`. -/
def cancel (s : AsyncPing) : AsyncPing :=
  { s with count_down := 0 }

/-- The member `AsyncPing::done()`. -/
def done (s : AsyncPing) : Step :=
  if s.ping_pcb then
    { state := { s with ping_pcb := false }, effects := [Effect.raw_remove] }
  else
    { state := s, effects := [] }

/-- The sequence value `ping_prepare_echo` leaves in `_response.icmp_seq`. -/
def next_seq (seq : Nat) : Nat :=
  if u16 (seq + 1) = 0x7fff then 0 else u16 (seq + 1)

/-- The buffer `ping_prepare_echo` has written before the checksum is computed:
header with `chksum = 0`, then `data_len` filler bytes `(char)i`. -/
def echo_unsummed (id seq len : Nat) : List Nat :=
  [ICMP_ECHO, 0] ++ store16 0 ++ store16 (u16 id) ++ store16 (htons seq)
    ++ (List.range (len - sizeof_icmp_echo_hdr)).map (fun i => i % 256)

/-- The buffer after `iecho->chksum = inet_chksum(iecho, len)`. -/
def echo_packet (id seq len : Nat) : List Nat :=
  let buf := echo_unsummed id seq len
  buf.take 2 ++ store16 (inet_chksum buf len) ++ buf.drop 4

/-- The member `AsyncPing::ping_prepare_echo(iecho, len)`: the new state and the
contents of the buffer. -/
def ping_prepare_echo (s : AsyncPing) (len : Nat) : AsyncPing × List Nat :=
  let seq := next_seq s._response.icmp_seq
  ({ s with _response := { s._response with icmp_seq := seq } },
   echo_packet s.ping_id seq len)

/-- The member `AsyncPing::ping_send(raw, addr)`. -/
def ping_send (s : AsyncPing) (env : SendEnv) : Step :=
  let s1 := { s with _response := { s._response with size := ping_size } }
  match env.alloc with
  | Alloc.null => { state := s1, effects := [] }
  | Alloc.chained => { state := s1, effects := [Effect.pbuf_free] }
  | Alloc.contiguous =>
    let p := ping_prepare_echo s1 (u16 s1._response.size)
    { state := { p.1 with ping_start := u32 env.now },
      effects := [Effect.raw_sendto s.ping_target p.2, Effect.pbuf_free] }

/-- The member `AsyncPing::send_packet()`. -/
def send_packet (s : AsyncPing) (env : SendEnv) : Step :=
  let s1 := { s with _response := { s._response with answer := false } }
  let sent := ping_send s1 env
  let s2 := sent.state
  let s3 := { s2 with _response := { s2._response with total_sent := u32 (s2._response.total_sent + 1) } }
  let s4 := { s3 with count_down := u8 (s3.count_down + 255) }
  { state := { s4 with _timer := some Handler._s_timer },
    effects := sent.effects ++
      [Effect.detach TickerId._timer, Effect.attach TickerId._timer 1000 Handler._s_timer] }

/-- The member `AsyncPing::begin(const IPAddress&, u8_t, u32_t)`.  `now` is the
reading of `sys_now()` stored in `ping_sent`; `env` is what the platform
supplies to the first `send_packet`. -/
def begin (s : AsyncPing) (addr : Nat) (count : Fin 256) (timeout : Nat)
    (now : Nat) (env : SendEnv) : Ret Bool :=
  if count.val = 0 ∨ s.count_down ≠ 0 then
    { ret := false, state := s, effects := [] }
  else
    let r := { s._response with
      icmp_seq := 0, total_sent := 0, total_recv := 0, total_time := 0,
      addr := addr, timeout := u32 timeout, mac := none }
    let s1 := { s with _response := r, count_down := count.val }
    let opened : List Effect :=
      if s1.ping_pcb then [] else [Effect.raw_new, Effect.raw_recv, Effect.raw_bind]
    let s2 := { s1 with ping_pcb := true, ping_target := addr, ping_sent := u32 now }
    let sent := send_packet s2 env
    { ret := true, state := sent.state, effects := opened ++ sent.effects }

/-- The member `AsyncPing::begin(const char*, u8_t, u32_t)`; `resolved` is the
outcome of `WiFi.hostByName`. -/
def begin_host (s : AsyncPing) (resolved : Option Nat) (count : Fin 256) (timeout : Nat)
    (now : Nat) (env : SendEnv) : Ret Bool :=
  match resolved with
  | some ip => begin s ip count timeout now env
  | none => { ret := false, state := s, effects := [] }

/-- The member `AsyncPing::timer()`. -/
def timer (s : AsyncPing) (env : SendEnv) : Step :=
  let s1 := { s with _timer := none }
  let reported : Step :=
    if s1._response.answer then { state := s1, effects := [] }
    else match s1._on_recv with
      | none => { state := s1, effects := [] }
      | some f =>
        { state := if f s1._response then cancel s1 else s1,
          effects := [Effect.on_recv s1._response] }
  let s2 := reported.state
  if s2.count_down ≠ 0 then
    let sent := send_packet s2 env
    { state := sent.state,
      effects := [Effect.detach TickerId._timer] ++ reported.effects ++ sent.effects }
  else
    let s3 := { s2 with _response := { s2._response with total_time := sub32 env.now s2.ping_sent } }
    let completed : List Effect :=
      match s3._on_sent with
      | none => []
      | some _ => [Effect.on_sent s3._response]
    let fin := done s3
    { state := fin.state,
      effects := [Effect.detach TickerId._timer] ++ reported.effects ++ completed ++ fin.effects }

/-- The static member `AsyncPing::_s_timer_recv(arg)`. -/
def _s_timer_recv (s : AsyncPing) : Step :=
  let s1 := { s with _timer_recv := none }
  match s1._on_recv with
  | none => { state := s1, effects := [Effect.detach TickerId._timer_recv] }
  | some f =>
    { state := if f s1._response then cancel s1 else s1,
      effects := [Effect.detach TickerId._timer_recv, Effect.on_recv s1._response] }

/-- The acceptance test of `ping_recv`. -/
def matches_probe (s : AsyncPing) (p : InPacket) : Bool :=
  decide (p.id = s.ping_id) && decide (p.seqno = htons s._response.icmp_seq)
    && decide (p.type = ICMP_ER)

/-- The member `AsyncPing::ping_recv(pcb, p, addr)`.  `now` is the reading of
`sys_now()`, `arp` what `etharp_find_addr` stores through its `eth_ret` argument
when it finds an entry (`none`: no entry, the pointer is left as it is). -/
def ping_recv (s : AsyncPing) (p : InPacket) (now : Nat) (arp : Option Nat) : Ret Nat :=
  if p.hdr_ok && matches_probe s p then
    let r1 := { s._response with
      time := sub32 now s.ping_start, ttl := p.ttl, answer := true,
      total_recv := u32 (s._response.total_recv + 1) }
    let looked : AsyncPingResponse × List Effect :=
      match r1.mac with
      | none => ({ r1 with mac := arp }, [Effect.etharp_find_addr p.src])
      | some _ => (r1, [])
    let s1 := { s with _response := looked.1 }
    let armed : Step :=
      match s1._on_recv with
      | none => { state := s1, effects := [] }
      | some _ =>
        { state := { s1 with _timer_recv := none, _timer := some Handler._s_timer_recv },
          effects := [Effect.detach TickerId._timer_recv,
                      Effect.attach TickerId._timer 1000 Handler._s_timer_recv] }
    { ret := 1, state := armed.state, effects := looked.2 ++ armed.effects ++ [Effect.pbuf_free] }
  else
    { ret := 0, state := s, effects := [Effect.pbuf_header_restore] }

/-- The handler a `Ticker` runs when it fires. -/
def run_handler (s : AsyncPing) (h : Handler) (env : SendEnv) : Step :=
  match h with
  | Handler._s_timer => timer s env
  | Handler._s_timer_recv => _s_timer_recv s

end AsyncPing

/-- What can happen to a session object: a call of a public member, an inbound
packet handed over by the raw transport, or a `Ticker` that fires. -/
inductive Event where
  | begin (addr : Nat) (count : Fin 256) (timeout : Nat) (now : Nat) (env : SendEnv)
  | begin_host (resolved : Option Nat) (count : Fin 256) (timeout : Nat) (now : Nat) (env : SendEnv)
  | set_on (mode : Bool) (fn : Option THandlerFunction)
  | cancel
  | recv (p : InPacket) (now : Nat) (arp : Option Nat)
  | fire_timer (env : SendEnv)
  | fire_timer_recv (env : SendEnv)

namespace AsyncPing

/-- One event.  The raw transport hands packets to `ping_recv` only while the
handle registered in `begin` is held; a detached `Ticker` does not fire. -/
def step (s : AsyncPing) : Event → Step
  | Event.begin addr count timeout now env =>
    let r := begin s addr count timeout now env
    { state := r.state, effects := r.effects }
  | Event.begin_host resolved count timeout now env =>
    let r := begin_host s resolved count timeout now env
    { state := r.state, effects := r.effects }
  | Event.set_on mode fn => { state := set_on s mode fn, effects := [] }
  | Event.cancel => { state := cancel s, effects := [] }
  | Event.recv p now arp =>
    if s.ping_pcb then
      let r := ping_recv s p now arp
      { state := r.state, effects := r.effects }
    else { state := s, effects := [] }
  | Event.fire_timer env =>
    match s._timer with
    | none => { state := s, effects := [] }
    | some h => run_handler s h env
  | Event.fire_timer_recv env =>
    match s._timer_recv with
    | none => { state := s, effects := [] }
    | some h => run_handler s h env

/-- A sequence of events, with all calls made in order. -/
def run (s : AsyncPing) : List Event → Step
  | [] => { state := s, effects := [] }
  | ev :: rest =>
    let a := step s ev
    let b := run a.state rest
    { state := b.state, effects := a.effects ++ b.effects }

end AsyncPing

/-- The response records the per-probe callback was invoked with. -/
def probe_reports : List Effect → List AsyncPingResponse
  | [] => []
  | Effect.on_recv r :: rest => r :: probe_reports rest
  | _ :: rest => probe_reports rest

/-- The response records the completion callback was invoked with. -/
def completions : List Effect → List AsyncPingResponse
  | [] => []
  | Effect.on_sent r :: rest => r :: completions rest
  | _ :: rest => completions rest

/-- The packets handed to the raw transport. -/
def packets_sent : List Effect → List (List Nat)
  | [] => []
  | Effect.raw_sendto _ p :: rest => p :: packets_sent rest
  | _ :: rest => packets_sent rest

/-! ## Concrete inputs used to exercise the embedding -/

/-- A response record with every field zero, `answer` false and no link address. -/
def zero_response : AsyncPingResponse :=
  { total_sent := 0, total_recv := 0, total_time := 0, size := 0, time := 0,
    icmp_seq := 0, ttl := 0, addr := 0, answer := false, timeout := 0, mac := none }

/-- A callback that never requests cancellation. -/
def never_cancel : THandlerFunction := fun _ => false

/-- A callback that requests cancellation every time. -/
def always_cancel : THandlerFunction := fun _ => true

/-- A platform that hands out a contiguous buffer, with the clock at `now`. -/
def send_ok (now : Nat) : SendEnv := { alloc := Alloc.contiguous, now := now }

/-- A platform that cannot hand out a buffer, with the clock at `now`. -/
def send_null (now : Nat) : SendEnv := { alloc := Alloc.null, now := now }

/-- An echo reply for identifier `id` and sequence `seq`, as it arrives. -/
def echo_reply (id seq : Nat) : InPacket :=
  { hdr_ok := true, ttl := 64, type := ICMP_ER, id := id, seqno := htons seq, src := 99 }

/-- A newly constructed object with identifier 7. -/
def sample_fresh : AsyncPing := AsyncPing.fresh 7 zero_response 0 0 0

/-- The object after `begin(5, 1, 1000)`: the only requested probe is in flight. -/
def last_probe_in_flight : AsyncPing :=
  (AsyncPing.begin sample_fresh 5 1 1000 100 (send_ok 101)).state

/-- The object after `begin(5, 3, 1000)`: the first of three probes is in flight. -/
def first_probe_in_flight : AsyncPing :=
  (AsyncPing.begin sample_fresh 5 3 1000 100 (send_ok 101)).state

/-- A session of three probes on the sample object, with per-probe callback `cb` and
a completion callback registered, up to the delivery of the reply to probe 1. -/
def responsive_start (cb : THandlerFunction) : List Event :=
  [Event.set_on true (some cb), Event.set_on false (some never_cancel),
   Event.begin 5 3 1000 100 (send_ok 101), Event.recv (echo_reply 7 1) 110 (some 5)]

/-- The same session with no reply delivered, up to the first deadline fire. -/
def silent_start (cb : THandlerFunction) : List Event :=
  [Event.set_on true (some cb), Event.set_on false (some never_cancel),
   Event.begin 5 3 1000 100 (send_ok 101), Event.fire_timer (send_ok 1100)]

/-- The sample object with both callbacks registered, neither ever cancelling. -/
def sample_registered : AsyncPing :=
  AsyncPing.set_on (AsyncPing.set_on sample_fresh true (some never_cancel)) false
    (some never_cancel)

/-- Three deadline fires with a stray packet in between; the second probe finds no
packet buffer. -/
def silent_events : List Event :=
  [Event.fire_timer (send_ok 1100), Event.recv (echo_reply 7 9) 1500 none,
   Event.fire_timer (send_null 2100), Event.fire_timer (send_ok 3100)]

/-! ## Derived definitions used in the statements -/

namespace AsyncPing

/-- The state `timer` hands to `send_packet` or finalises: the deadline `Ticker`
detached and, when the probe went unanswered and the per-probe callback asked
for it, the session cancelled. -/
def after_report (s : AsyncPing) : AsyncPing :=
  let s1 := { s with _timer := none }
  if s1._response.answer then s1
  else match s1._on_recv with
    | none => s1
    | some f => if f s1._response then cancel s1 else s1

/-- The per-probe callback invocation made by `timer`. -/
def report_effects (s : AsyncPing) : List Effect :=
  if s._response.answer then []
  else match s._on_recv with
    | none => []
    | some _ => [Effect.on_recv s._response]

/-- The completion callback invocation made by `timer` when it finalises. -/
def completion_effects (s : AsyncPing) : List Effect :=
  match s._on_sent with
  | none => []
  | some _ => [Effect.on_sent s._response]

/-- The state in which `timer` invokes the completion callback. -/
def finalised (s : AsyncPing) (env : SendEnv) : AsyncPing :=
  { after_report s with
    _response := { (after_report s)._response with
      total_time := sub32 env.now (after_report s).ping_sent } }

/-- The state `begin` hands to its first `send_packet`: counters reset, target and
timeout stored, handle held, `ping_sent` set to the clock. -/
def armed (s : AsyncPing) (addr : Nat) (count : Fin 256) (timeout now : Nat) : AsyncPing :=
  { s with
    _response := { s._response with
      icmp_seq := 0, total_sent := 0, total_recv := 0, total_time := 0,
      addr := addr, timeout := u32 timeout, mac := none }
    count_down := count.val
    ping_pcb := true
    ping_target := addr
    ping_sent := u32 now }

/-- The calls `begin` makes to obtain the raw transport handle. -/
def open_effects (s : AsyncPing) : List Effect :=
  if s.ping_pcb then [] else [Effect.raw_new, Effect.raw_recv, Effect.raw_bind]

/-- An event of a session in which cancellation is never requested and no other
session is started: no `cancel()`, no `begin` that goes ahead, and every
per-probe callback registered returns false. -/
def Quiet (s : AsyncPing) : Event → Prop
  | Event.begin addr count timeout now env => (begin s addr count timeout now env).ret = false
  | Event.begin_host resolved count timeout now env =>
    (begin_host s resolved count timeout now env).ret = false
  | Event.set_on mode fn => mode = true → ∀ f, fn = some f → ∀ r, f r = false
  | Event.cancel => False
  | Event.recv _ _ _ => True
  | Event.fire_timer _ => True
  | Event.fire_timer_recv _ => True

/-- Every event of the sequence is `Quiet` in the state it happens in. -/
def QuietRun (s : AsyncPing) : List Event → Prop
  | [] => True
  | ev :: rest => Quiet s ev ∧ QuietRun (step s ev).state rest

/-- A packet delivery that is not a repeat: if the packet is handed to `ping_recv` and
accepted, the outstanding probe has not been answered yet. -/
def NoRepeat (s : AsyncPing) : Event → Prop
  | Event.recv p now arp =>
    s.ping_pcb = true → (ping_recv s p now arp).ret = 1 → s._response.answer = false
  | _ => True

/-- No delivery of the sequence is a repeat in the state it happens in. -/
def NoRepeatRun (s : AsyncPing) : List Event → Prop
  | [] => True
  | ev :: rest => NoRepeat s ev ∧ NoRepeatRun (step s ev).state rest

/-- The states of an object on which `begin` has gone ahead at least once: the state
right after such a `begin`, and every state reached from there by any event. -/
inductive InSession : AsyncPing → Prop
  | start (s0 : AsyncPing) (addr : Nat) (count : Fin 256) (timeout now : Nat) (env : SendEnv) :
      (begin s0 addr count timeout now env).ret = true →
      InSession (begin s0 addr count timeout now env).state
  | next (s : AsyncPing) (ev : Event) : InSession s → InSession (step s ev).state

end AsyncPing

/-- Whether the event is a call of `begin` (either overload). -/
def Event.is_begin : Event → Bool
  | Event.begin _ _ _ _ _ => true
  | Event.begin_host _ _ _ _ _ => true
  | _ => false

namespace AsyncPing

/-- The event leaves the counters alone (`count_down` may be zeroed by a
cancellation). -/
def Idle (s t : AsyncPing) : Prop :=
  t._response.total_sent = s._response.total_sent ∧
  t._response.total_recv = s._response.total_recv ∧
  t._response.icmp_seq = s._response.icmp_seq ∧
  t._response.answer = s._response.answer ∧
  t.ping_pcb = s.ping_pcb ∧
  (t.count_down = s.count_down ∨ t.count_down = 0)

/-- The event is a `begin` that went ahead. -/
def Begun (s t : AsyncPing) : Prop :=
  s.count_down = 0 ∧
  t._response.total_sent = 1 ∧
  t._response.total_recv = 0 ∧
  t._response.icmp_seq ≤ 1 ∧
  t._response.answer = false ∧
  t.ping_pcb = true ∧
  t.count_down + 1 ≤ 255

/-- The event is a packet accepted by `ping_recv`. -/
def Accepted (s t : AsyncPing) : Prop :=
  s.ping_pcb = true ∧
  t._response.total_sent = s._response.total_sent ∧
  t._response.total_recv = u32 (s._response.total_recv + 1) ∧
  t._response.icmp_seq = s._response.icmp_seq ∧
  t._response.answer = true ∧
  t.ping_pcb = s.ping_pcb ∧
  t.count_down = s.count_down

/-- The event is a run of `timer` that sent the next probe, the platform being
`env`. -/
def Sent (s t : AsyncPing) (env : SendEnv) : Prop :=
  s.count_down ≠ 0 ∧
  t._response.total_sent = u32 (s._response.total_sent + 1) ∧
  t._response.total_recv = s._response.total_recv ∧
  t._response.icmp_seq =
    (if env.alloc = Alloc.contiguous then next_seq s._response.icmp_seq
     else s._response.icmp_seq) ∧
  t._response.answer = false ∧
  t.ping_pcb = s.ping_pcb ∧
  t.count_down = u8 (s.count_down + 255)

/-- The event is a run of `timer` that finalised the session. -/
def Finalised (s t : AsyncPing) : Prop :=
  t._response.total_sent = s._response.total_sent ∧
  t._response.total_recv = s._response.total_recv ∧
  t._response.icmp_seq = s._response.icmp_seq ∧
  t._response.answer = s._response.answer ∧
  t.ping_pcb = false ∧
  t.count_down = 0

/-- The counters are consistent: no more replies counted than probes sent, one
fewer while a probe is unanswered and the handle is held, and the probes sent
and still to send fit the 8-bit count. -/
def Consistent (s : AsyncPing) : Prop :=
  s._response.total_recv ≤ s._response.total_sent ∧
  (s.ping_pcb = true → s._response.answer = false →
    s._response.total_recv < s._response.total_sent) ∧
  (s.count_down ≠ 0 → s._response.total_sent + s.count_down ≤ 255)

end AsyncPing

/-- A session of three probes in which the reply to probe 1 is delivered twice. -/
def repeated_reply_events : List Event :=
  [Event.begin 5 3 1000 100 (send_ok 101), Event.recv (echo_reply 7 1) 110 none,
   Event.recv (echo_reply 7 1) 120 none]

/-- A session of three probes in which each reply is delivered once. -/
def single_reply_events : List Event :=
  [Event.begin 5 3 1000 100 (send_ok 101), Event.recv (echo_reply 7 1) 110 none,
   Event.fire_timer (send_ok 1100), Event.recv (echo_reply 7 2) 1110 none,
   Event.fire_timer (send_ok 2100), Event.fire_timer (send_ok 3100)]

/-! ## Readers of the recorded calls and of a built packet -/

/-- The source addresses `etharp_find_addr` was asked about. -/
def lookups : List Effect → List Nat
  | [] => []
  | Effect.etharp_find_addr a :: rest => a :: lookups rest
  | _ :: rest => lookups rest

/-- The `Ticker::attach` calls made: which `Ticker`, the period in milliseconds and
the handler. -/
def attaches : List Effect → List (TickerId × Nat × Handler)
  | [] => []
  | Effect.attach t ms h :: rest => (t, ms, h) :: attaches rest
  | _ :: rest => attaches rest

/-- A packet with its checksum field (bytes 2 and 3) set to zero. -/
def zero_chksum (pkt : List Nat) : List Nat :=
  pkt.take 2 ++ [0, 0] ++ pkt.drop 4

/-- The 16-bit value the target reads from two consecutive bytes of memory. -/
def load16 (pkt : List Nat) (i : Nat) : Nat :=
  pkt.getD i 0 + 256 * pkt.getD (i + 1) 0

/-- The 16-bit value two consecutive bytes carry in network byte order. -/
def net16 (pkt : List Nat) (i : Nat) : Nat :=
  256 * pkt.getD i 0 + pkt.getD (i + 1) 0

/-- A packet handed to `ping_recv`, with the clock reading and the outcome of the
link-address lookup at that moment. -/
structure Delivery where
  p : InPacket
  now : Nat
  arp : Option Nat

/-- The event of a delivery. -/
def Delivery.event (d : Delivery) : Event := Event.recv d.p d.now d.arp

/-- The sample object with the sequence counter one step below the ceiling. -/
def near_ceiling : AsyncPing :=
  { sample_fresh with _response := { zero_response with icmp_seq := 0x7ffe } }

/-- The sample session in which the second probe finds no packet buffer, a late reply
to probe 1 arrives, and the timer fires again. -/
def stale_reply_events : List Event :=
  [Event.begin 5 3 1000 100 (send_ok 101), Event.fire_timer (send_null 1100),
   Event.recv (echo_reply 7 1) 1200 none, Event.fire_timer (send_ok 2100)]

/-- Packets that do not match an outstanding probe 1 of identifier 7. -/
def stray_deliveries : List Delivery :=
  [{ p := echo_reply 8 1, now := 1200, arp := none },
   { p := echo_reply 7 5, now := 1300, arp := some 5 }]

namespace AsyncPing

/-- An event that is not an accepted reply: if it is a packet handed to `ping_recv`,
the packet is returned unconsumed. -/
def Unanswered (s : AsyncPing) : Event → Prop
  | Event.recv p now arp => s.ping_pcb = true → (ping_recv s p now arp).ret = 0
  | _ => True

/-- No event of the sequence is an accepted reply in the state it happens in. -/
def UnansweredRun (s : AsyncPing) : List Event → Prop
  | [] => True
  | ev :: rest => Unanswered s ev ∧ UnansweredRun (step s ev).state rest

end AsyncPing

/-! ## Shared facts about the embedding -/

namespace AsyncPing

theorem run_nil (s : AsyncPing) : run s [] = { state := s, effects := [] } := rfl

theorem run_cons (s : AsyncPing) (ev : Event) (rest : List Event) :
    run s (ev :: rest) =
      { state := (run (step s ev).state rest).state,
        effects := (step s ev).effects ++ (run (step s ev).state rest).effects } := rfl

theorem run_append (s : AsyncPing) (a b : List Event) :
    run s (a ++ b) =
      { state := (run (run s a).state b).state,
        effects := (run s a).effects ++ (run (run s a).state b).effects } := by
  induction a generalizing s with
  | nil => simp [run_nil]
  | cons ev rest ih => simp [run_cons, ih, List.append_assoc]

theorem begin_rejected (s : AsyncPing) (addr : Nat) (count : Fin 256) (timeout now : Nat)
    (env : SendEnv) (h : count.val = 0 ∨ s.count_down ≠ 0) :
    begin s addr count timeout now env = { ret := false, state := s, effects := [] } := by
  unfold begin
  rw [if_pos h]

theorem begin_ret_false_iff (s : AsyncPing) (addr : Nat) (count : Fin 256) (timeout now : Nat)
    (env : SendEnv) :
    (begin s addr count timeout now env).ret = false ↔ (count.val = 0 ∨ s.count_down ≠ 0) := by
  unfold begin
  by_cases h : count.val = 0 ∨ s.count_down ≠ 0
  · simp [h]
  · simp [h]

end AsyncPing

/-! ## Claims about `begin` -/

/-- C6: `begin` with a probe count of zero returns false in every state, and
whenever either overload of `begin` returns false the session state is the
state it was called in and no call to the outside world was made (no packet
built or sent, no timer attached or detached). -/
theorem begin_failure_is_atomic (s : AsyncPing) (addr timeout now : Nat) (env : SendEnv) :
    (AsyncPing.begin s addr 0 timeout now env).ret = false ∧
    (∀ resolved : Option Nat, (AsyncPing.begin_host s resolved 0 timeout now env).ret = false) ∧
    (∀ count : Fin 256, (AsyncPing.begin s addr count timeout now env).ret = false →
      (AsyncPing.begin s addr count timeout now env).state = s ∧
      (AsyncPing.begin s addr count timeout now env).effects = []) ∧
    (∀ (resolved : Option Nat) (count : Fin 256),
      (AsyncPing.begin_host s resolved count timeout now env).ret = false →
      (AsyncPing.begin_host s resolved count timeout now env).state = s ∧
      (AsyncPing.begin_host s resolved count timeout now env).effects = []) := by
  have key : ∀ (a : Nat) (count : Fin 256), (AsyncPing.begin s a count timeout now env).ret = false →
      (AsyncPing.begin s a count timeout now env).state = s ∧
      (AsyncPing.begin s a count timeout now env).effects = [] := by
    intro a count h
    rw [AsyncPing.begin_ret_false_iff] at h
    rw [AsyncPing.begin_rejected s a count timeout now env h]
    exact ⟨rfl, rfl⟩
  have zero : ∀ a : Nat, (AsyncPing.begin s a 0 timeout now env).ret = false := by
    intro a
    rw [AsyncPing.begin_ret_false_iff]
    exact Or.inl rfl
  refine ⟨zero addr, ?_, key addr, ?_⟩
  · intro resolved
    cases resolved with
    | none => rfl
    | some ip => exact zero ip
  · intro resolved count h
    cases resolved with
    | none => exact ⟨rfl, rfl⟩
    | some ip => exact key ip count h

/-- C6 witness: with the first of three probes in flight, `begin(9, 2, 500)` returns
false and the object and the outside world are untouched. -/
theorem begin_failure_is_atomic_witness :
    (AsyncPing.begin first_probe_in_flight 9 2 500 200 (send_ok 201)).ret = false ∧
    (AsyncPing.begin first_probe_in_flight 9 2 500 200 (send_ok 201)).state = first_probe_in_flight ∧
    (AsyncPing.begin first_probe_in_flight 9 2 500 200 (send_ok 201)).effects = [] :=
  ⟨by decide,
   (begin_failure_is_atomic first_probe_in_flight 9 500 200 (send_ok 201)).2.2.1 2 (by decide)⟩

/-- C5: with the last requested probe in flight (sent, deadline timer armed, not yet
reported) a second `begin` is not rejected: it returns true and overwrites the
running session. -/
theorem begin_accepted_while_last_probe_in_flight :
    last_probe_in_flight._timer = some Handler._s_timer ∧
    last_probe_in_flight._response.total_sent = 1 ∧
    last_probe_in_flight._response.answer = false ∧
    last_probe_in_flight.count_down = 0 ∧
    (AsyncPing.begin last_probe_in_flight 9 2 500 200 (send_ok 201)).ret = true ∧
    (AsyncPing.begin last_probe_in_flight 9 2 500 200 (send_ok 201)).state._response.addr = 9 ∧
    (AsyncPing.begin last_probe_in_flight 9 2 500 200 (send_ok 201)).state._response.icmp_seq = 1 ∧
    (AsyncPing.begin last_probe_in_flight 9 2 500 200 (send_ok 201)).state.count_down = 1 ∧
    (AsyncPing.begin last_probe_in_flight 9 2 500 200 (send_ok 201)).state ≠ last_probe_in_flight ∧
    packets_sent (AsyncPing.begin last_probe_in_flight 9 2 500 200 (send_ok 201)).effects ≠ [] := by
  refine ⟨by decide, by decide, by decide, by decide, by decide, by decide, by decide, by decide, ?_, by decide⟩
  intro h
  have h2 := congrArg AsyncPing.count_down h
  revert h2
  decide

/-! ## Claims about the reply matcher `ping_recv` -/

namespace AsyncPing

theorem matches_probe_iff (s : AsyncPing) (p : InPacket) :
    matches_probe s p = true ↔
      (p.id = s.ping_id ∧ p.seqno = htons s._response.icmp_seq ∧ p.type = ICMP_ER) := by
  simp [matches_probe, and_assoc]

theorem ping_recv_rejected (s : AsyncPing) (p : InPacket) (now : Nat) (arp : Option Nat)
    (h : (p.hdr_ok && matches_probe s p) = false) :
    ping_recv s p now arp =
      { ret := 0, state := s, effects := [Effect.pbuf_header_restore] } := by
  unfold ping_recv
  simp [h]

theorem ping_recv_ret_accepted (s : AsyncPing) (p : InPacket) (now : Nat) (arp : Option Nat)
    (h : (p.hdr_ok && matches_probe s p) = true) :
    (ping_recv s p now arp).ret = 1 := by
  unfold ping_recv
  simp [h]

end AsyncPing

/-- C8: for a packet whose IP header can be stripped, `ping_recv` returns 1 exactly
when the packet's identifier equals `ping_id`, its sequence field equals
`htons(icmp_seq)` and its type is echo reply; in every other case it returns 0. -/
theorem ping_recv_accepts_iff_matching (s : AsyncPing) (p : InPacket) (now : Nat)
    (arp : Option Nat) (h : p.hdr_ok = true) :
    ((AsyncPing.ping_recv s p now arp).ret = 1 ↔
      (p.id = s.ping_id ∧ p.seqno = htons s._response.icmp_seq ∧ p.type = ICMP_ER)) ∧
    (¬ (p.id = s.ping_id ∧ p.seqno = htons s._response.icmp_seq ∧ p.type = ICMP_ER) →
      (AsyncPing.ping_recv s p now arp).ret = 0) := by
  rw [← AsyncPing.matches_probe_iff]
  by_cases m : AsyncPing.matches_probe s p = true
  · have acc : (p.hdr_ok && AsyncPing.matches_probe s p) = true := by simp [h, m]
    simp [AsyncPing.ping_recv_ret_accepted s p now arp acc, m]
  · have rej : (p.hdr_ok && AsyncPing.matches_probe s p) = false := by simp [h, m]
    simp [AsyncPing.ping_recv_rejected s p now arp rej, m]

/-- C8 witness: with probe 1 of identifier 7 outstanding, the reply for sequence 1 is
accepted and the reply for sequence 2 is not. -/
theorem ping_recv_accepts_iff_matching_witness :
    (echo_reply 7 1).hdr_ok = true ∧
    (AsyncPing.ping_recv first_probe_in_flight (echo_reply 7 1) 110 none).ret = 1 ∧
    (AsyncPing.ping_recv first_probe_in_flight (echo_reply 7 2) 110 none).ret = 0 :=
  ⟨rfl,
   (ping_recv_accepts_iff_matching first_probe_in_flight (echo_reply 7 1) 110 none rfl).1.2
     (by decide),
   (ping_recv_accepts_iff_matching first_probe_in_flight (echo_reply 7 2) 110 none rfl).2
     (by decide)⟩

/-- C9: a packet whose identifier differs from `ping_id`, or whose sequence field
differs from `htons(icmp_seq)`, or whose type is not echo reply, is returned
unconsumed (`ping_recv` returns 0), the whole object (response record,
`count_down`, both timers, callbacks, handle) is as before, and the only call
made is the one that restores the packet's header. -/
theorem ping_recv_nonmatching_leaves_state (s : AsyncPing) (p : InPacket) (now : Nat)
    (arp : Option Nat)
    (h : p.id ≠ s.ping_id ∨ p.seqno ≠ htons s._response.icmp_seq ∨ p.type ≠ ICMP_ER) :
    (AsyncPing.ping_recv s p now arp).ret = 0 ∧
    (AsyncPing.ping_recv s p now arp).state = s ∧
    (AsyncPing.ping_recv s p now arp).effects = [Effect.pbuf_header_restore] := by
  have m : AsyncPing.matches_probe s p = false := by
    cases hm : AsyncPing.matches_probe s p with
    | false => rfl
    | true =>
      rw [AsyncPing.matches_probe_iff] at hm
      rcases h with h | h | h
      · exact absurd hm.1 h
      · exact absurd hm.2.1 h
      · exact absurd hm.2.2 h
  have rej : (p.hdr_ok && AsyncPing.matches_probe s p) = false := by simp [m]
  rw [AsyncPing.ping_recv_rejected s p now arp rej]
  exact ⟨rfl, rfl, rfl⟩

/-- C9 witness: a reply carrying another session's identifier leaves the object with
probe 1 in flight untouched. -/
theorem ping_recv_nonmatching_leaves_state_witness :
    ((echo_reply 8 1).id ≠ first_probe_in_flight.ping_id ∨
      (echo_reply 8 1).seqno ≠ htons first_probe_in_flight._response.icmp_seq ∨
      (echo_reply 8 1).type ≠ ICMP_ER) ∧
    (AsyncPing.ping_recv first_probe_in_flight (echo_reply 8 1) 110 (some 5)).ret = 0 ∧
    (AsyncPing.ping_recv first_probe_in_flight (echo_reply 8 1) 110 (some 5)).state
      = first_probe_in_flight ∧
    (AsyncPing.ping_recv first_probe_in_flight (echo_reply 8 1) 110 (some 5)).effects
      = [Effect.pbuf_header_restore] :=
  ⟨Or.inl (by decide),
   ping_recv_nonmatching_leaves_state first_probe_in_flight (echo_reply 8 1) 110 (some 5)
     (Or.inl (by decide))⟩

/-! ## The timer-driven scheduler: `send_packet`, `timer`, `_s_timer_recv` -/

namespace AsyncPing

/-- What `send_packet` does to the members the scheduler reads. -/
theorem send_packet_fields (s : AsyncPing) (env : SendEnv) :
    (send_packet s env).state._response.answer = false ∧
    (send_packet s env).state._response.total_sent = u32 (s._response.total_sent + 1) ∧
    (send_packet s env).state._response.total_recv = s._response.total_recv ∧
    (send_packet s env).state._response.total_time = s._response.total_time ∧
    (send_packet s env).state._response.mac = s._response.mac ∧
    (send_packet s env).state.count_down = u8 (s.count_down + 255) ∧
    (send_packet s env).state._timer = some Handler._s_timer ∧
    (send_packet s env).state._timer_recv = s._timer_recv ∧
    (send_packet s env).state._on_recv = s._on_recv ∧
    (send_packet s env).state._on_sent = s._on_sent ∧
    (send_packet s env).state.ping_pcb = s.ping_pcb ∧
    (send_packet s env).state.ping_sent = s.ping_sent ∧
    (send_packet s env).state.ping_id = s.ping_id := by
  rcases env with ⟨a, n⟩
  cases a <;> simp [send_packet, ping_send, ping_prepare_echo]

/-- The sequence counter after `send_packet`: advanced when a contiguous buffer was
obtained, left alone otherwise. -/
theorem send_packet_icmp_seq (s : AsyncPing) (env : SendEnv) :
    (send_packet s env).state._response.icmp_seq =
      if env.alloc = Alloc.contiguous then next_seq s._response.icmp_seq
      else s._response.icmp_seq := by
  rcases env with ⟨a, n⟩
  cases a <;> simp [send_packet, ping_send, ping_prepare_echo]

/-- The function `send_packet` invokes neither callback. -/
theorem send_packet_no_callbacks (s : AsyncPing) (env : SendEnv) :
    probe_reports (send_packet s env).effects = [] ∧
    completions (send_packet s env).effects = [] := by
  rcases env with ⟨a, n⟩
  cases a <;> simp [send_packet, ping_send, ping_prepare_echo, probe_reports, completions]

theorem probe_reports_append (a b : List Effect) :
    probe_reports (a ++ b) = probe_reports a ++ probe_reports b := by
  induction a with
  | nil => rfl
  | cons e rest ih => cases e <;> simp [probe_reports, ih]

theorem completions_append (a b : List Effect) :
    completions (a ++ b) = completions a ++ completions b := by
  induction a with
  | nil => rfl
  | cons e rest ih => cases e <;> simp [completions, ih]

theorem packets_sent_append (a b : List Effect) :
    packets_sent (a ++ b) = packets_sent a ++ packets_sent b := by
  induction a with
  | nil => rfl
  | cons e rest ih => cases e <;> simp [packets_sent, ih]

/-- The function `timer` when probes remain: report, then send the next probe. -/
theorem timer_sends (s : AsyncPing) (env : SendEnv) (h : (after_report s).count_down ≠ 0) :
    timer s env =
      { state := (send_packet (after_report s) env).state,
        effects := [Effect.detach TickerId._timer] ++ report_effects s
          ++ (send_packet (after_report s) env).effects } := by
  unfold after_report at h
  unfold timer after_report report_effects
  cases ha : s._response.answer with
  | true => simp [ha] at h ⊢; simp [h]
  | false =>
    cases hf : s._on_recv with
    | none => simp [ha, hf] at h ⊢; simp [h]
    | some f => simp [ha, hf] at h ⊢; simp [h]

/-- The function `timer` when no probe remains: report, then finalise. -/
theorem timer_finalises (s : AsyncPing) (env : SendEnv) (h : (after_report s).count_down = 0) :
    timer s env =
      { state := (done (finalised s env)).state,
        effects := [Effect.detach TickerId._timer] ++ report_effects s
          ++ completion_effects (finalised s env) ++ (done (finalised s env)).effects } := by
  unfold after_report at h
  unfold timer finalised after_report report_effects completion_effects
  cases ha : s._response.answer with
  | true => simp [ha] at h ⊢; simp [h]
  | false =>
    cases hf : s._on_recv with
    | none => simp [ha, hf] at h ⊢; simp [h]
    | some f => simp [ha, hf] at h ⊢; simp [h]

end AsyncPing

namespace AsyncPing

/-- The function `begin` when it goes ahead: reset, obtain the handle, send. -/
theorem begin_accepted (s : AsyncPing) (addr : Nat) (count : Fin 256) (timeout now : Nat)
    (env : SendEnv) (hc : count.val ≠ 0) (hd : s.count_down = 0) :
    begin s addr count timeout now env =
      { ret := true,
        state := (send_packet (armed s addr count timeout now) env).state,
        effects := open_effects s ++ (send_packet (armed s addr count timeout now) env).effects } := by
  unfold begin armed open_effects
  simp [hc, hd]

/-- When the report does not cancel, `after_report` only detaches the deadline
`Ticker`. -/
theorem after_report_quiet (s : AsyncPing)
    (h : s._response.answer = true ∨ s._on_recv = none ∨
      ∃ f, s._on_recv = some f ∧ f s._response = false) :
    (after_report s).count_down = s.count_down ∧
    (after_report s)._response = s._response ∧
    (after_report s)._on_recv = s._on_recv ∧
    (after_report s)._on_sent = s._on_sent ∧
    (after_report s)._timer_recv = s._timer_recv ∧
    (after_report s).ping_pcb = s.ping_pcb ∧
    (after_report s).ping_sent = s.ping_sent ∧
    (after_report s).ping_id = s.ping_id := by
  unfold after_report
  rcases h with h | h | ⟨f, h, hf⟩
  · simp [h]
  · cases ha : s._response.answer <;> simp [h, ha]
  · cases ha : s._response.answer <;> simp [h, ha, hf]

/-- The function `timer` always detaches the deadline `Ticker` first. -/
theorem after_report_timer (s : AsyncPing) : (after_report s)._timer = none := by
  unfold after_report
  cases ha : s._response.answer with
  | true => simp [ha]
  | false =>
    cases hf : s._on_recv with
    | none => simp [ha, hf]
    | some f => cases hc : f s._response <;> simp [cancel, ha, hf, hc]

/-- A deadline fire for an unanswered probe, with probes remaining and a per-probe
callback that does not cancel: one report, then the next probe. -/
theorem lost_fire_sends (s : AsyncPing) (f : THandlerFunction) (env : SendEnv)
    (hf : ∀ r, f r = false) (h1 : s._response.answer = false) (h2 : s._on_recv = some f)
    (h3 : s._timer = some Handler._s_timer) (h4 : s.count_down ≠ 0) :
    (step s (Event.fire_timer env)).state._response.answer = false ∧
    (step s (Event.fire_timer env)).state._on_recv = some f ∧
    (step s (Event.fire_timer env)).state._on_sent = s._on_sent ∧
    (step s (Event.fire_timer env)).state._timer = some Handler._s_timer ∧
    (step s (Event.fire_timer env)).state._timer_recv = s._timer_recv ∧
    (step s (Event.fire_timer env)).state.count_down = u8 (s.count_down + 255) ∧
    (step s (Event.fire_timer env)).state._response.total_sent = u32 (s._response.total_sent + 1) ∧
    (step s (Event.fire_timer env)).state._response.total_recv = s._response.total_recv ∧
    (step s (Event.fire_timer env)).state.ping_pcb = s.ping_pcb ∧
    (step s (Event.fire_timer env)).state.ping_sent = s.ping_sent ∧
    probe_reports (step s (Event.fire_timer env)).effects = [s._response] ∧
    completions (step s (Event.fire_timer env)).effects = [] := by
  obtain ⟨a1, a2, a3, a4, a5, a6, a7, a8⟩ := after_report_quiet s (Or.inr (Or.inr ⟨f, h2, hf _⟩))
  have hk : (after_report s).count_down ≠ 0 := by rw [a1]; exact h4
  have st : step s (Event.fire_timer env) = timer s env := by
    simp [step, h3, run_handler]
  rw [st, timer_sends s env hk]
  obtain ⟨b1, b2, b3, _, _, b6, b7, b8, b9, b10, b11, b12, _⟩ :=
    send_packet_fields (after_report s) env
  have quiet := send_packet_no_callbacks (after_report s) env
  simp only [probe_reports_append, completions_append, quiet.1, quiet.2]
  simp [b1, b2, b3, b6, b7, b8, b9, b10, b11, b12, a1, a2, a3, a4, a5, a6, a7, a8, h2,
    report_effects, h1, probe_reports, completions]

/-- A deadline fire for an unanswered probe with no probe remaining, both callbacks
registered, the per-probe callback not cancelling and the handle held: one
report, the completion callback, and the handle released. -/
theorem lost_fire_finalises (s : AsyncPing) (f g : THandlerFunction) (env : SendEnv)
    (hf : ∀ r, f r = false) (h1 : s._response.answer = false) (h2 : s._on_recv = some f)
    (h3 : s._timer = some Handler._s_timer) (h4 : s.count_down = 0)
    (h5 : s._on_sent = some g) (h6 : s.ping_pcb = true) :
    (step s (Event.fire_timer env)).state._response =
      { s._response with total_time := sub32 env.now s.ping_sent } ∧
    (step s (Event.fire_timer env)).state.ping_pcb = false ∧
    (step s (Event.fire_timer env)).state._timer = none ∧
    (step s (Event.fire_timer env)).state._timer_recv = s._timer_recv ∧
    (step s (Event.fire_timer env)).state.count_down = 0 ∧
    probe_reports (step s (Event.fire_timer env)).effects = [s._response] ∧
    completions (step s (Event.fire_timer env)).effects =
      [{ s._response with total_time := sub32 env.now s.ping_sent }] ∧
    packets_sent (step s (Event.fire_timer env)).effects = [] ∧
    (step s (Event.fire_timer env)).effects.getLast? = some Effect.raw_remove := by
  obtain ⟨a1, a2, a3, a4, a5, a6, a7, a8⟩ :=
    after_report_quiet s (Or.inr (Or.inr ⟨f, h2, hf _⟩))
  have a9 : (after_report s)._timer = none := after_report_timer s
  have hk : (after_report s).count_down = 0 := by rw [a1]; exact h4
  have st : step s (Event.fire_timer env) = timer s env := by
    simp [step, h3, run_handler]
  rw [st, timer_finalises s env hk]
  simp [finalised, done, a1, a2, a4, a5, a6, a7, a9, h6, h5, h4, completion_effects,
    report_effects, h1, h2, probe_reports, completions, packets_sent]

/-- A detached `Ticker` does not fire: the event changes nothing and calls nothing. -/
theorem detached_fire_is_silent (s : AsyncPing) (env : SendEnv) :
    (s._timer = none → step s (Event.fire_timer env) = { state := s, effects := [] }) ∧
    (s._timer_recv = none → step s (Event.fire_timer_recv env) = { state := s, effects := [] }) := by
  constructor
  · intro h; simp [step, h]
  · intro h; simp [step, h]

end AsyncPing

namespace AsyncPing

/-- Three deadline fires with no reply, from the state in which the first of three
probes is in flight. -/
theorem silent_tail (s : AsyncPing) (f g : THandlerFunction) (e1 e2 e3 : SendEnv)
    (hf : ∀ r, f r = false) (h1 : s._response.answer = false) (h2 : s._on_recv = some f)
    (h3 : s._timer = some Handler._s_timer) (h4 : s.count_down = 2)
    (h5 : s._on_sent = some g) (h6 : s.ping_pcb = true) (h7 : s._timer_recv = none)
    (h8 : s._response.total_sent = 1) (h9 : s._response.total_recv = 0) :
    let t1 := step s (Event.fire_timer e1)
    let t2 := step t1.state (Event.fire_timer e2)
    let t3 := step t2.state (Event.fire_timer e3)
    probe_reports (t1.effects ++ t2.effects) = [s._response, t1.state._response] ∧
    t1.state._response.answer = false ∧
    t2.state._response.answer = false ∧
    completions (t1.effects ++ t2.effects) = [] ∧
    probe_reports t3.effects = [t2.state._response] ∧
    completions t3.effects = [t3.state._response] ∧
    t3.state._response.total_sent = 3 ∧
    t3.state._response.total_recv = 0 ∧
    t3.state._response.total_time = sub32 e3.now s.ping_sent ∧
    t3.state.ping_pcb = false ∧
    t3.state._timer = none ∧
    t3.state._timer_recv = none ∧
    packets_sent t3.effects = [] ∧
    t3.effects.getLast? = some Effect.raw_remove := by
  intro t1 t2 t3
  obtain ⟨a1, a2, a3, a4, a5, a6, a7, a8, a9, a10, a11, a12⟩ :=
    lost_fire_sends s f e1 hf h1 h2 h3 (by rw [h4]; decide)
  have c1 : t1.state.count_down = 1 := by rw [a6, h4]; rfl
  obtain ⟨b1, b2, b3, b4, b5, b6, b7, b8, b9, b10, b11, b12⟩ :=
    lost_fire_sends t1.state f e2 hf a1 a2 a4 (by rw [c1]; decide)
  have c2 : t2.state.count_down = 0 := by rw [b6, c1]; rfl
  obtain ⟨d1, d2, d3, d4, _, d6, d7, d8, d9⟩ :=
    lost_fire_finalises t2.state f g e3 hf b1 b2 b4 c2 (by rw [b3, a3, h5])
      (by rw [b9, a9, h6])
  have sent3 : t2.state._response.total_sent = 3 := by rw [b7, a7, h8]; rfl
  have recv0 : t2.state._response.total_recv = 0 := by rw [b8, a8, h9]
  refine ⟨?_, a1, b1, ?_, d6, ?_, ?_, ?_, ?_, d2, d3, ?_, d8, d9⟩
  · rw [probe_reports_append, a11, b11]; rfl
  · rw [completions_append, a12, b12]; rfl
  · rw [d7, d1]
  · rw [d1]; exact sent3
  · rw [d1]; exact recv0
  · rw [d1, b10, a10]
  · rw [d4, b5, a5, h7]

end AsyncPing

/-- C2: a session of three probes begun on a new object with both callbacks
registered (the per-probe callback never cancelling) and no packet ever delivered:
the per-probe callback is invoked exactly three times, each time with
`answer = false`; the completion callback is invoked exactly once, at the third
deadline fire, with `total_sent = 3`, `total_recv = 0` and `total_time` the clock
at that fire minus the clock read in `begin` (mod 2^32); the raw handle is then
released, both timers are detached, and a later fire of either timer sends
nothing and calls nothing.  Holds whatever `pbuf_alloc` returns. -/
theorem silent_target_session (id : Nat) (r0 : AsyncPingResponse) (target sent start : Nat)
    (f g : THandlerFunction) (hf : ∀ r, f r = false)
    (addr timeout now0 : Nat) (e0 e1 e2 e3 e4 : SendEnv) :
    let pre := AsyncPing.run (AsyncPing.fresh id r0 target sent start)
      [Event.set_on true (some f), Event.set_on false (some g),
       Event.begin addr 3 timeout now0 e0, Event.fire_timer e1, Event.fire_timer e2]
    let last := AsyncPing.step pre.state (Event.fire_timer e3)
    (probe_reports (pre.effects ++ last.effects)).length = 3 ∧
    (∀ r ∈ probe_reports (pre.effects ++ last.effects), r.answer = false) ∧
    completions pre.effects = [] ∧
    completions last.effects = [last.state._response] ∧
    last.state._response.total_sent = 3 ∧
    last.state._response.total_recv = 0 ∧
    last.state._response.total_time = sub32 e3.now now0 ∧
    last.state.ping_pcb = false ∧
    last.effects.getLast? = some Effect.raw_remove ∧
    last.state._timer = none ∧ last.state._timer_recv = none ∧
    packets_sent last.effects = [] ∧
    AsyncPing.step last.state (Event.fire_timer e4) = { state := last.state, effects := [] } ∧
    AsyncPing.step last.state (Event.fire_timer_recv e4) = { state := last.state, effects := [] } := by
  intro pre last
  let s0 : AsyncPing :=
    AsyncPing.set_on (AsyncPing.set_on (AsyncPing.fresh id r0 target sent start) true (some f))
      false (some g)
  have hb := AsyncPing.begin_accepted s0 addr 3 timeout now0 e0 (by decide) rfl
  let s1 := (AsyncPing.send_packet (AsyncPing.armed s0 addr 3 timeout now0) e0).state
  obtain ⟨p1, p2, p3, _, _, p6, p7, p8, p9, p10, p11, p12, _⟩ :=
    AsyncPing.send_packet_fields (AsyncPing.armed s0 addr 3 timeout now0) e0
  have quiet := AsyncPing.send_packet_no_callbacks (AsyncPing.armed s0 addr 3 timeout now0) e0
  have tail := AsyncPing.silent_tail s1 f g e1 e2 e3 hf p1 (by rw [p9]; rfl) p7
    (by rw [p6]; show u8 ((3 : Fin 256).val + 255) = 2; decide) (by rw [p10]; rfl) (by rw [p11]; rfl) (by rw [p8]; rfl)
    (by rw [p2]; rfl) (by rw [p3]; rfl)
  have hpre_state : pre.state =
      (AsyncPing.step (AsyncPing.step s1 (Event.fire_timer e1)).state (Event.fire_timer e2)).state := by
    simp only [pre, AsyncPing.run_cons, AsyncPing.run_nil, AsyncPing.step, hb, s1, s0]
  have hpre_eff : pre.effects = AsyncPing.open_effects s0
      ++ (AsyncPing.send_packet (AsyncPing.armed s0 addr 3 timeout now0) e0).effects
      ++ ((AsyncPing.step s1 (Event.fire_timer e1)).effects
      ++ (AsyncPing.step (AsyncPing.step s1 (Event.fire_timer e1)).state (Event.fire_timer e2)).effects) := by
    simp only [pre, AsyncPing.run_cons, AsyncPing.run_nil, AsyncPing.step, hb, s1, s0,
      List.append_nil, List.nil_append, List.append_assoc]
  obtain ⟨t1, t2, t3, t4, t5, t6, t7, t8, t9, t10, t11, t12, t13, t14⟩ := tail
  have hlast : last = AsyncPing.step
      (AsyncPing.step (AsyncPing.step s1 (Event.fire_timer e1)).state (Event.fire_timer e2)).state
      (Event.fire_timer e3) := by
    simp only [last, hpre_state]
  have open_quiet : probe_reports (AsyncPing.open_effects s0) = [] ∧
      completions (AsyncPing.open_effects s0) = [] := by
    constructor <;> rfl
  have reports : probe_reports (pre.effects ++ last.effects) =
      [s1._response, (AsyncPing.step s1 (Event.fire_timer e1)).state._response,
       (AsyncPing.step (AsyncPing.step s1 (Event.fire_timer e1)).state (Event.fire_timer e2)).state._response] := by
    rw [hpre_eff, hlast]
    simp only [AsyncPing.probe_reports_append, open_quiet.1, quiet.1, t5, List.nil_append]
    rw [← AsyncPing.probe_reports_append, t1]
    rfl
  refine ⟨?_, ?_, ?_, ?_, ?_, ?_, ?_, ?_, ?_, ?_, ?_, ?_, ?_, ?_⟩
  · rw [reports]; rfl
  · intro r hr
    rw [reports] at hr
    simp only [List.mem_cons, List.mem_singleton, List.not_mem_nil, or_false] at hr
    rcases hr with h | h | h
    · rw [h]; exact p1
    · rw [h]; exact t2
    · rw [h]; exact t3
  · rw [hpre_eff]
    simp only [AsyncPing.completions_append, open_quiet.2, quiet.2, List.nil_append]
    rw [← AsyncPing.completions_append, t4]
  · rw [hlast]; exact t6
  · rw [hlast]; exact t7
  · rw [hlast]; exact t8
  · rw [hlast, t9, p12]
    simp [AsyncPing.armed, sub32, u32]
  · rw [hlast]; exact t10
  · rw [hlast]; exact t14
  · rw [hlast]; exact t11
  · rw [hlast]; exact t12
  · rw [hlast]; exact t13
  · exact (AsyncPing.detached_fire_is_silent last.state e4).1 (by rw [hlast]; exact t11)
  · exact (AsyncPing.detached_fire_is_silent last.state e4).2 (by rw [hlast]; exact t12)

/-- C2 witness: the silent session on the sample object, timers firing at 1100, 2100
and 3100 after a `begin` at 100, with a per-probe callback that never cancels. -/
theorem silent_target_session_witness :
    (∀ r, never_cancel r = false) ∧
    completions (AsyncPing.step (AsyncPing.run sample_fresh
      [Event.set_on true (some never_cancel), Event.set_on false (some never_cancel),
       Event.begin 5 3 1000 100 (send_ok 101), Event.fire_timer (send_ok 1100),
       Event.fire_timer (send_null 2100)]).state (Event.fire_timer (send_ok 3100))).effects
      = [{ zero_response with
            total_sent := 3, total_time := 3000, size := 64, icmp_seq := 2, addr := 5,
            timeout := 1000 }] :=
  ⟨fun _ => rfl,
   (silent_target_session 7 zero_response 0 0 0 never_cancel never_cancel (fun _ => rfl)
      5 1000 100 (send_ok 101) (send_ok 1100) (send_null 2100) (send_ok 3100)
      (send_ok 4100)).2.2.2.1.trans (by decide)⟩

/-! ## The settling path: what happens once a reply has been accepted -/

namespace AsyncPing

/-- What an accepting `ping_recv` does when a per-probe callback is registered: the
handler `_s_timer_recv` is attached to the deadline `Ticker` `_timer`, in place of
`_s_timer`, and `_timer_recv` is left detached. -/
theorem ping_recv_accepted_fields (s : AsyncPing) (p : InPacket) (now : Nat) (arp : Option Nat)
    (h : (p.hdr_ok && matches_probe s p) = true) :
    (ping_recv s p now arp).state._response.answer = true ∧
    (ping_recv s p now arp).state._response.total_recv = u32 (s._response.total_recv + 1) ∧
    (ping_recv s p now arp).state._response.total_sent = s._response.total_sent ∧
    (ping_recv s p now arp).state._response.icmp_seq = s._response.icmp_seq ∧
    (ping_recv s p now arp).state._response.time = sub32 now s.ping_start ∧
    (ping_recv s p now arp).state._response.ttl = p.ttl ∧
    (ping_recv s p now arp).state.count_down = s.count_down ∧
    (ping_recv s p now arp).state.ping_id = s.ping_id ∧
    (ping_recv s p now arp).state.ping_pcb = s.ping_pcb ∧
    (ping_recv s p now arp).state._on_recv = s._on_recv ∧
    (ping_recv s p now arp).state._on_sent = s._on_sent ∧
    (ping_recv s p now arp).state._timer =
      (if s._on_recv.isSome then some Handler._s_timer_recv else s._timer) ∧
    (ping_recv s p now arp).state._timer_recv =
      (if s._on_recv.isSome then none else s._timer_recv) ∧
    probe_reports (ping_recv s p now arp).effects = [] ∧
    completions (ping_recv s p now arp).effects = [] ∧
    packets_sent (ping_recv s p now arp).effects = [] := by
  unfold ping_recv
  cases hm : s._response.mac <;> cases hf : s._on_recv <;>
    simp [h, hm, hf, probe_reports, completions, packets_sent]

/-- A fire of `_timer` while it holds `_s_timer_recv`: the per-probe callback is
invoked, the session is cancelled if the callback asks for it, and nothing else
happens; `_timer` keeps the same handler. -/
theorem settle_fire (s : AsyncPing) (f : THandlerFunction) (env : SendEnv)
    (h1 : s._timer = some Handler._s_timer_recv) (h2 : s._timer_recv = none)
    (h3 : s._on_recv = some f) :
    (step s (Event.fire_timer env)).state = (if f s._response then cancel s else s) ∧
    (step s (Event.fire_timer env)).effects =
      [Effect.detach TickerId._timer_recv, Effect.on_recv s._response] := by
  cases s
  simp only at h1 h2 h3
  subst h1 h2 h3
  exact ⟨rfl, rfl⟩

/-- Once `_timer` holds `_s_timer_recv` with a per-probe callback registered, no
number of timer fires leads to `timer()`: every fire invokes the per-probe
callback with the same response record, the completion callback is never
invoked, no packet is sent, and `total_sent` stays as it is. -/
theorem stuck_after_reply (f : THandlerFunction) (fires : List SendEnv) (s : AsyncPing)
    (h1 : s._timer = some Handler._s_timer_recv) (h2 : s._timer_recv = none)
    (h3 : s._on_recv = some f) :
    completions (run s (fires.map Event.fire_timer)).effects = [] ∧
    packets_sent (run s (fires.map Event.fire_timer)).effects = [] ∧
    probe_reports (run s (fires.map Event.fire_timer)).effects
      = List.replicate fires.length s._response ∧
    (run s (fires.map Event.fire_timer)).state._response = s._response ∧
    (run s (fires.map Event.fire_timer)).state._timer = some Handler._s_timer_recv ∧
    (run s (fires.map Event.fire_timer)).state.ping_pcb = s.ping_pcb ∧
    ((run s (fires.map Event.fire_timer)).state.count_down = s.count_down ∨
      (run s (fires.map Event.fire_timer)).state.count_down = 0) := by
  induction fires generalizing s with
  | nil => exact ⟨rfl, rfl, rfl, rfl, h1, rfl, Or.inl rfl⟩
  | cons env rest ih =>
    obtain ⟨st, ef⟩ := settle_fire s f env h1 h2 h3
    have n1 : (step s (Event.fire_timer env)).state._timer = some Handler._s_timer_recv := by
      rw [st]; split <;> simp [cancel, h1]
    have n2 : (step s (Event.fire_timer env)).state._timer_recv = none := by
      rw [st]; split <;> simp [cancel, h2]
    have n3 : (step s (Event.fire_timer env)).state._on_recv = some f := by
      rw [st]; split <;> simp [cancel, h3]
    have n4 : (step s (Event.fire_timer env)).state._response = s._response := by
      rw [st]; split <;> simp [cancel]
    have n5 : (step s (Event.fire_timer env)).state.ping_pcb = s.ping_pcb := by
      rw [st]; split <;> simp [cancel]
    have n6 : (step s (Event.fire_timer env)).state.count_down = s.count_down ∨
        (step s (Event.fire_timer env)).state.count_down = 0 := by
      rw [st]; split <;> simp [cancel]
    obtain ⟨i1, i2, i3, i4, i5, i6, i7⟩ := ih (step s (Event.fire_timer env)).state n1 n2 n3
    simp only [List.map_cons, run_cons, completions_append, packets_sent_append,
      probe_reports_append, i1, i2, i3, i4, i5, i6, n4, n5, ef, List.length_cons]
    refine ⟨rfl, rfl, rfl, trivial, trivial, trivial, ?_⟩
    rcases i7 with i7 | i7
    · rw [i7]; exact n6
    · exact Or.inr i7

end AsyncPing

/-- C1: in the responsive scenario (three probes, both callbacks registered, the
per-probe callback never cancelling, the reply to probe 1 delivered before the
timer fires) the code does not reach completion: however many times the armed
timer fires, each fire invokes the per-probe callback with `answer = true` for
probe 1, the completion callback is never invoked, and probes 2 and 3 are never
sent (`total_sent` stays 1, one packet on the wire). -/
theorem responsive_session_never_completes (fires : List SendEnv) :
    completions (AsyncPing.run sample_fresh
      (responsive_start never_cancel ++ fires.map Event.fire_timer)).effects = [] ∧
    (probe_reports (AsyncPing.run sample_fresh
      (responsive_start never_cancel ++ fires.map Event.fire_timer)).effects).length
        = fires.length ∧
    (∀ r ∈ probe_reports (AsyncPing.run sample_fresh
      (responsive_start never_cancel ++ fires.map Event.fire_timer)).effects,
        r.answer = true ∧ r.icmp_seq = 1) ∧
    (AsyncPing.run sample_fresh
      (responsive_start never_cancel ++ fires.map Event.fire_timer)).state._response.total_sent
        = 1 ∧
    (packets_sent (AsyncPing.run sample_fresh
      (responsive_start never_cancel ++ fires.map Event.fire_timer)).effects).length = 1 := by
  obtain ⟨k1, k2, k3, k4, _, _, _⟩ := AsyncPing.stuck_after_reply never_cancel fires
    (AsyncPing.run sample_fresh (responsive_start never_cancel)).state
    (by decide) (by decide) rfl
  have q1 : completions (AsyncPing.run sample_fresh (responsive_start never_cancel)).effects
      = [] := by decide
  have q2 : probe_reports (AsyncPing.run sample_fresh (responsive_start never_cancel)).effects
      = [] := by decide
  have q3 : (packets_sent
      (AsyncPing.run sample_fresh (responsive_start never_cancel)).effects).length = 1 := by
    decide
  simp only [AsyncPing.run_append, AsyncPing.completions_append, AsyncPing.probe_reports_append,
    AsyncPing.packets_sent_append, k1, k2, k3, k4, q1, q2, List.nil_append, List.append_nil,
    List.length_replicate, List.mem_replicate, q3, true_and]
  refine ⟨?_, by decide⟩
  intro r hr
  rw [hr.2]
  decide

/-- C7: a cancellation returned by the per-probe callback for an answered probe (the
callback being invoked from `_s_timer_recv`) stops further probes but never leads
to the completion callback, however many times the timer fires afterwards; a
cancellation returned for a lost probe (from `timer`) completes at once with
`total_sent = 1`. -/
theorem cancel_after_reply_never_completes (fires : List SendEnv) :
    completions (AsyncPing.run sample_fresh
      (responsive_start always_cancel ++ fires.map Event.fire_timer)).effects = [] ∧
    (probe_reports (AsyncPing.run sample_fresh
      (responsive_start always_cancel ++ fires.map Event.fire_timer)).effects).length
        = fires.length ∧
    (AsyncPing.run sample_fresh
      (responsive_start always_cancel ++ fires.map Event.fire_timer)).state._response.total_sent
        = 1 ∧
    (packets_sent (AsyncPing.run sample_fresh
      (responsive_start always_cancel ++ fires.map Event.fire_timer)).effects).length = 1 ∧
    (AsyncPing.run sample_fresh
      (responsive_start always_cancel ++ [Event.fire_timer (send_ok 1100)])).state.count_down
        = 0 ∧
    (completions (AsyncPing.run sample_fresh (silent_start always_cancel)).effects).map
      (fun r => r.total_sent) = [1] := by
  obtain ⟨k1, k2, k3, k4, _, _, _⟩ := AsyncPing.stuck_after_reply always_cancel fires
    (AsyncPing.run sample_fresh (responsive_start always_cancel)).state
    (by decide) (by decide) rfl
  have q1 : completions (AsyncPing.run sample_fresh (responsive_start always_cancel)).effects
      = [] := by decide
  have q2 : probe_reports (AsyncPing.run sample_fresh (responsive_start always_cancel)).effects
      = [] := by decide
  have q3 : (packets_sent
      (AsyncPing.run sample_fresh (responsive_start always_cancel)).effects).length = 1 := by
    decide
  simp only [AsyncPing.run_append, AsyncPing.completions_append, AsyncPing.probe_reports_append,
    AsyncPing.packets_sent_append, k1, k2, k3, k4, q1, q2, List.nil_append, List.append_nil,
    List.length_replicate, q3, true_and]
  exact ⟨by decide, by decide, by decide⟩

/-! ## Counters: what each operation does to them -/

namespace AsyncPing

/-- The report made by `timer` changes nothing but `_timer` and, on a cancellation
request, `count_down`. -/
theorem after_report_fields (s : AsyncPing) :
    (after_report s)._response = s._response ∧
    (after_report s)._on_recv = s._on_recv ∧
    (after_report s)._on_sent = s._on_sent ∧
    (after_report s)._timer_recv = s._timer_recv ∧
    (after_report s).ping_pcb = s.ping_pcb ∧
    (after_report s).ping_sent = s.ping_sent ∧
    (after_report s).ping_id = s.ping_id ∧
    ((after_report s).count_down = s.count_down ∨ (after_report s).count_down = 0) := by
  unfold after_report
  cases ha : s._response.answer with
  | true => simp [ha]
  | false =>
    cases hf : s._on_recv with
    | none => simp [ha, hf]
    | some f => cases hc : f s._response <;> simp [cancel, ha, hf, hc]

/-- The callbacks `timer` invokes before it sends or finalises: no completion. -/
theorem report_effects_quiet (s : AsyncPing) :
    completions (report_effects s) = [] ∧ packets_sent (report_effects s) = [] ∧
    (probe_reports (report_effects s) = [] ∨ probe_reports (report_effects s) = [s._response]) := by
  unfold report_effects
  cases ha : s._response.answer with
  | true => simp [completions, packets_sent, probe_reports]
  | false =>
    cases hf : s._on_recv with
    | none => simp [completions, packets_sent, probe_reports]
    | some f => simp [completions, packets_sent, probe_reports]

/-- What `_s_timer_recv` does to the members. -/
theorem s_timer_recv_fields (s : AsyncPing) :
    (_s_timer_recv s).state._response = s._response ∧
    (_s_timer_recv s).state._on_recv = s._on_recv ∧
    (_s_timer_recv s).state._on_sent = s._on_sent ∧
    (_s_timer_recv s).state._timer = s._timer ∧
    (_s_timer_recv s).state._timer_recv = none ∧
    (_s_timer_recv s).state.ping_pcb = s.ping_pcb ∧
    (_s_timer_recv s).state.ping_id = s.ping_id ∧
    ((_s_timer_recv s).state.count_down = s.count_down ∨
      (_s_timer_recv s).state.count_down = 0) ∧
    completions (_s_timer_recv s).effects = [] ∧
    packets_sent (_s_timer_recv s).effects = [] := by
  unfold _s_timer_recv
  cases hf : s._on_recv with
  | none => simp [completions, packets_sent]
  | some f => cases hc : f s._response <;> simp [cancel, hc, completions, packets_sent]

/-- What `_s_timer_recv` does when the per-probe callback does not cancel. -/
theorem s_timer_recv_quiet (s : AsyncPing)
    (h : ∀ f, s._on_recv = some f → f s._response = false) :
    (_s_timer_recv s).state.count_down = s.count_down := by
  unfold _s_timer_recv
  cases hf : s._on_recv with
  | none => simp
  | some f => simp [h f hf]

/-- What the finalising branch of `timer` leaves behind. -/
theorem done_finalised_fields (s : AsyncPing) (env : SendEnv) :
    (done (finalised s env)).state._response =
      { s._response with total_time := sub32 env.now s.ping_sent } ∧
    (done (finalised s env)).state.count_down = (after_report s).count_down ∧
    (done (finalised s env)).state._on_recv = s._on_recv ∧
    (done (finalised s env)).state._on_sent = s._on_sent ∧
    (done (finalised s env)).state.ping_pcb = false ∧
    (done (finalised s env)).state._timer = none ∧
    (done (finalised s env)).state._timer_recv = s._timer_recv ∧
    (done (finalised s env)).state.ping_id = s.ping_id ∧
    (∀ r ∈ completions (completion_effects (finalised s env)),
      r = { s._response with total_time := sub32 env.now s.ping_sent }) ∧
    completions (done (finalised s env)).effects = [] ∧
    packets_sent (completion_effects (finalised s env)) = [] ∧
    packets_sent (done (finalised s env)).effects = [] := by
  obtain ⟨a1, a2, a3, a4, a5, a6, a7, _⟩ := after_report_fields s
  have a9 := after_report_timer s
  unfold done finalised completion_effects
  cases hp : (after_report s).ping_pcb <;> cases hs : (after_report s)._on_sent <;>
    simp [hp, hs, a1, a2, a3, a4, a5, a6, a7, a9, completions, packets_sent] <;>
    rw [← a3, hs]

end AsyncPing

/-! ## A session without cancellation sends exactly the requested number of probes -/

namespace AsyncPing

theorem completions_detach (t : TickerId) (l : List Effect) :
    completions (Effect.detach t :: l) = completions l := rfl

theorem packets_sent_detach (t : TickerId) (l : List Effect) :
    packets_sent (Effect.detach t :: l) = packets_sent l := rfl

theorem probe_reports_detach (t : TickerId) (l : List Effect) :
    probe_reports (Effect.detach t :: l) = probe_reports l := rfl

/-- The function `begin` returns true exactly when it is not rejected. -/
theorem begin_ret_true_iff (s : AsyncPing) (addr : Nat) (count : Fin 256) (timeout now : Nat)
    (env : SendEnv) :
    (begin s addr count timeout now env).ret = true ↔ (count.val ≠ 0 ∧ s.count_down = 0) := by
  unfold begin
  by_cases h : count.val = 0 ∨ s.count_down ≠ 0
  · simp only [h, if_true]
    constructor
    · intro c; cases c
    · intro c
      rcases h with h | h
      · exact absurd h c.1
      · exact absurd c.2 h
  · simp only [h, if_false, true_iff]
    push_neg at h
    exact h

/-- The counters right after a `begin` that goes ahead. -/
theorem begin_counters (s : AsyncPing) (addr : Nat) (count : Fin 256) (timeout now : Nat)
    (env : SendEnv) (h : (begin s addr count timeout now env).ret = true) :
    (begin s addr count timeout now env).state._response.total_sent = 1 ∧
    (begin s addr count timeout now env).state._response.total_recv = 0 ∧
    (begin s addr count timeout now env).state._response.answer = false ∧
    (begin s addr count timeout now env).state.count_down + 1 = count.val ∧
    (begin s addr count timeout now env).state._response.icmp_seq ≤ 1 ∧
    (begin s addr count timeout now env).state._on_recv = s._on_recv ∧
    (begin s addr count timeout now env).state.ping_pcb = true := by
  rw [begin_ret_true_iff] at h
  rw [begin_accepted s addr count timeout now env h.1 h.2]
  obtain ⟨p1, p2, p3, _, _, p6, _, _, p9, _, p11, _, _⟩ :=
    send_packet_fields (armed s addr count timeout now) env
  have p13 := send_packet_icmp_seq (armed s addr count timeout now) env
  have hc := count.isLt
  have hpos : 0 < count.val := Nat.pos_of_ne_zero h.1
  refine ⟨?_, ?_, p1, ?_, ?_, ?_, ?_⟩
  · show ((send_packet (armed s addr count timeout now) env).state._response.total_sent = 1)
    rw [p2]; rfl
  · show ((send_packet (armed s addr count timeout now) env).state._response.total_recv = 0)
    rw [p3]; rfl
  · show ((send_packet (armed s addr count timeout now) env).state.count_down + 1 = count.val)
    rw [p6]
    show (count.val + 255) % 2 ^ 8 + 1 = count.val
    omega
  · show ((send_packet (armed s addr count timeout now) env).state._response.icmp_seq ≤ 1)
    rw [p13]
    split
    · show next_seq 0 ≤ 1
      decide
    · show 0 ≤ 1
      decide
  · show ((send_packet (armed s addr count timeout now) env).state._on_recv = s._on_recv)
    rw [p9]; rfl
  · show ((send_packet (armed s addr count timeout now) env).state.ping_pcb = true)
    rw [p11]; rfl

/-- A handler run in a session without cancellation keeps
`total_sent + count_down` at the requested count `c`, and reports completion
only with `total_sent = c`. -/
theorem quiet_handler (c : Nat) (hc : c ≤ 255) (s : AsyncPing) (h : Handler) (env : SendEnv)
    (j1 : s._response.total_sent + s.count_down = c)
    (j2 : ∀ f, s._on_recv = some f → ∀ r, f r = false) :
    ((run_handler s h env).state._response.total_sent + (run_handler s h env).state.count_down = c ∧
      (∀ f, (run_handler s h env).state._on_recv = some f → ∀ r, f r = false)) ∧
    (∀ r ∈ completions (run_handler s h env).effects, r.total_sent = c) := by
  cases h with
  | _s_timer =>
    have cond : s._response.answer = true ∨ s._on_recv = none ∨
        ∃ f, s._on_recv = some f ∧ f s._response = false := by
      cases hf : s._on_recv with
      | none => exact Or.inr (Or.inl rfl)
      | some f => exact Or.inr (Or.inr ⟨f, rfl, j2 f hf _⟩)
    obtain ⟨a1, a2, a3, a4, a5, a6, a7, a8⟩ := after_report_quiet s cond
    have rq := report_effects_quiet s
    show ((timer s env).state._response.total_sent + (timer s env).state.count_down = c ∧
      (∀ f, (timer s env).state._on_recv = some f → ∀ r, f r = false)) ∧
      (∀ r ∈ completions (timer s env).effects, r.total_sent = c)
    by_cases hk : (after_report s).count_down = 0
    · rw [timer_finalises s env hk]
      obtain ⟨d1, d2, d3, _, _, _, _, _, d9, d10, _, _⟩ := done_finalised_fields s env
      have cd0 : s.count_down = 0 := by rw [← a1]; exact hk
      refine ⟨⟨?_, ?_⟩, ?_⟩
      · show ((done (finalised s env)).state._response.total_sent
          + (done (finalised s env)).state.count_down = c)
        rw [d1, d2, hk]
        show s._response.total_sent + 0 = c
        omega
      · show (∀ f, (done (finalised s env)).state._on_recv = some f → ∀ r, f r = false)
        rw [d3]; exact j2
      · intro r hr
        simp only [List.cons_append, List.nil_append, completions_detach, completions_append,
          rq.1, d10, List.append_nil] at hr
        rw [d9 r hr]
        show s._response.total_sent = c
        omega
    · rw [timer_sends s env hk]
      obtain ⟨_, b2, _, _, _, b6, _, _, b9, _, _, _, _⟩ := send_packet_fields (after_report s) env
      have quiet := send_packet_no_callbacks (after_report s) env
      have cdne : s.count_down ≠ 0 := by rw [← a1]; exact hk
      refine ⟨⟨?_, ?_⟩, ?_⟩
      · show ((send_packet (after_report s) env).state._response.total_sent
          + (send_packet (after_report s) env).state.count_down = c)
        rw [b2, b6, a1, a2]
        show (s._response.total_sent + 1) % 2 ^ 32 + (s.count_down + 255) % 2 ^ 8 = c
        omega
      · show (∀ f, (send_packet (after_report s) env).state._on_recv = some f → ∀ r, f r = false)
        rw [b9, a3]; exact j2
      · intro r hr
        simp only [List.cons_append, List.nil_append, completions_detach, completions_append,
          rq.1, quiet.2, List.append_nil] at hr
        cases hr
  | _s_timer_recv =>
    obtain ⟨a1, a2, _, _, _, _, _, _, a9, _⟩ := s_timer_recv_fields s
    have a8 := s_timer_recv_quiet s (fun f hf => j2 f hf _)
    show ((_s_timer_recv s).state._response.total_sent + (_s_timer_recv s).state.count_down = c ∧
      (∀ f, (_s_timer_recv s).state._on_recv = some f → ∀ r, f r = false)) ∧
      (∀ r ∈ completions (_s_timer_recv s).effects, r.total_sent = c)
    rw [a1, a2, a8, a9]
    exact ⟨⟨j1, j2⟩, fun r hr => by cases hr⟩

end AsyncPing

namespace AsyncPing

theorem step_begin (s : AsyncPing) (addr : Nat) (count : Fin 256) (timeout now : Nat)
    (env : SendEnv) :
    step s (Event.begin addr count timeout now env) =
      { state := (begin s addr count timeout now env).state,
        effects := (begin s addr count timeout now env).effects } := rfl

theorem step_begin_host_some (s : AsyncPing) (ip : Nat) (count : Fin 256) (timeout now : Nat)
    (env : SendEnv) :
    step s (Event.begin_host (some ip) count timeout now env) =
      step s (Event.begin ip count timeout now env) := rfl

theorem step_begin_host_none (s : AsyncPing) (count : Fin 256) (timeout now : Nat)
    (env : SendEnv) :
    step s (Event.begin_host none count timeout now env) = { state := s, effects := [] } := rfl

/-- One event of a session without cancellation keeps `total_sent + count_down` at
the requested count `c`, and reports completion only with `total_sent = c`. -/
theorem quiet_step (c : Nat) (hc : c ≤ 255) (s : AsyncPing) (ev : Event)
    (j1 : s._response.total_sent + s.count_down = c)
    (j2 : ∀ f, s._on_recv = some f → ∀ r, f r = false) (hq : Quiet s ev) :
    ((step s ev).state._response.total_sent + (step s ev).state.count_down = c ∧
      (∀ f, (step s ev).state._on_recv = some f → ∀ r, f r = false)) ∧
    (∀ r ∈ completions (step s ev).effects, r.total_sent = c) := by
  have same : ((({ state := s, effects := [] } : Step).state._response.total_sent
      + ({ state := s, effects := [] } : Step).state.count_down = c ∧
      (∀ f, ({ state := s, effects := [] } : Step).state._on_recv = some f → ∀ r, f r = false)) ∧
      (∀ r ∈ completions ({ state := s, effects := [] } : Step).effects, r.total_sent = c)) :=
    ⟨⟨j1, j2⟩, fun r hr => by cases hr⟩
  have rejected : ∀ (a : Nat) (n : Fin 256) (t w : Nat) (e : SendEnv),
      (begin s a n t w e).ret = false →
      ((step s (Event.begin a n t w e)).state._response.total_sent
        + (step s (Event.begin a n t w e)).state.count_down = c ∧
      (∀ f, (step s (Event.begin a n t w e)).state._on_recv = some f → ∀ r, f r = false)) ∧
      (∀ r ∈ completions (step s (Event.begin a n t w e)).effects, r.total_sent = c) := by
    intro a n t w e hr
    rw [begin_ret_false_iff] at hr
    rw [step_begin, begin_rejected s a n t w e hr]
    exact same
  cases ev with
  | begin addr count timeout now env => exact rejected addr count timeout now env hq
  | begin_host resolved count timeout now env =>
    cases resolved with
    | none => rw [step_begin_host_none]; exact same
    | some ip => rw [step_begin_host_some]; exact rejected ip count timeout now env hq
  | set_on mode fn =>
    cases mode with
    | false => exact ⟨⟨j1, j2⟩, fun r hr => by cases hr⟩
    | true => exact ⟨⟨j1, fun f hf => hq rfl f hf⟩, fun r hr => by cases hr⟩
  | cancel => exact absurd hq id
  | recv p now arp =>
    cases hp : s.ping_pcb with
    | false =>
      have e : step s (Event.recv p now arp) = { state := s, effects := [] } := by
        simp [step, hp]
      rw [e]; exact same
    | true =>
      have e : step s (Event.recv p now arp) =
          { state := (ping_recv s p now arp).state, effects := (ping_recv s p now arp).effects } := by
        simp [step, hp]
      rw [e]
      cases hm : (p.hdr_ok && matches_probe s p) with
      | false =>
        rw [ping_recv_rejected s p now arp hm]
        exact ⟨⟨j1, j2⟩, fun r hr => by cases hr⟩
      | true =>
        obtain ⟨_, _, a3, _, _, _, a7, _, _, a10, _, _, _, _, a15, _⟩ :=
          ping_recv_accepted_fields s p now arp hm
        refine ⟨⟨?_, ?_⟩, ?_⟩
        · show ((ping_recv s p now arp).state._response.total_sent
            + (ping_recv s p now arp).state.count_down = c)
          rw [a3, a7]; exact j1
        · show (∀ f, (ping_recv s p now arp).state._on_recv = some f → ∀ r, f r = false)
          rw [a10]; exact j2
        · intro r hr
          rw [show completions (ping_recv s p now arp).effects = [] from a15] at hr
          cases hr
  | fire_timer env =>
    cases ht : s._timer with
    | none =>
      have e : step s (Event.fire_timer env) = { state := s, effects := [] } := by
        simp [step, ht]
      rw [e]; exact same
    | some h =>
      have e : step s (Event.fire_timer env) = run_handler s h env := by
        simp [step, ht]
      rw [e]; exact quiet_handler c hc s h env j1 j2
  | fire_timer_recv env =>
    cases ht : s._timer_recv with
    | none =>
      have e : step s (Event.fire_timer_recv env) = { state := s, effects := [] } := by
        simp [step, ht]
      rw [e]; exact same
    | some h =>
      have e : step s (Event.fire_timer_recv env) = run_handler s h env := by
        simp [step, ht]
      rw [e]; exact quiet_handler c hc s h env j1 j2

/-- A run of a session without cancellation keeps `total_sent + count_down` at the
requested count `c`, and reports completion only with `total_sent = c`. -/
theorem quiet_run (c : Nat) (hc : c ≤ 255) (evs : List Event) (s : AsyncPing)
    (j1 : s._response.total_sent + s.count_down = c)
    (j2 : ∀ f, s._on_recv = some f → ∀ r, f r = false) (hq : QuietRun s evs) :
    (run s evs).state._response.total_sent + (run s evs).state.count_down = c ∧
    (∀ r ∈ completions (run s evs).effects, r.total_sent = c) := by
  induction evs generalizing s with
  | nil => exact ⟨j1, fun r hr => by cases hr⟩
  | cons ev rest ih =>
    obtain ⟨⟨k1, k2⟩, k3⟩ := quiet_step c hc s ev j1 j2 hq.1
    obtain ⟨i1, i2⟩ := ih (step s ev).state k1 k2 hq.2
    rw [run_cons]
    refine ⟨i1, ?_⟩
    intro r hr
    rw [show completions ((step s ev).effects ++ (run (step s ev).state rest).effects)
      = completions (step s ev).effects ++ completions (run (step s ev).state rest).effects
      from completions_append _ _] at hr
    rcases List.mem_append.mp hr with h | h
    · exact k3 r h
    · exact i2 r h

end AsyncPing

/-- C3: in a session started by a `begin(addr, count, timeout)` that returns true, in
which cancellation is never requested (no `cancel()`, no per-probe callback that
returns true) and no other session is started, `total_sent + count_down = count`
after every sequence of operations, and every invocation of the completion
callback carries `total_sent = count`. -/
theorem total_sent_reaches_count (s0 : AsyncPing) (addr : Nat) (count : Fin 256)
    (timeout now : Nat) (env : SendEnv) (evs : List Event)
    (hb : (AsyncPing.begin s0 addr count timeout now env).ret = true)
    (hcb : ∀ f, s0._on_recv = some f → ∀ r, f r = false)
    (hq : AsyncPing.QuietRun (AsyncPing.begin s0 addr count timeout now env).state evs) :
    (AsyncPing.run (AsyncPing.begin s0 addr count timeout now env).state evs).state._response.total_sent
      + (AsyncPing.run (AsyncPing.begin s0 addr count timeout now env).state evs).state.count_down
      = count.val ∧
    (∀ r ∈ completions
        (AsyncPing.run (AsyncPing.begin s0 addr count timeout now env).state evs).effects,
      r.total_sent = count.val) ∧
    (∀ r ∈ completions (AsyncPing.begin s0 addr count timeout now env).effects,
      r.total_sent = count.val) := by
  obtain ⟨b1, _, _, b4, _, b6, _⟩ := AsyncPing.begin_counters s0 addr count timeout now env hb
  have hc : count.val ≤ 255 := by have := count.isLt; omega
  have j1 : (AsyncPing.begin s0 addr count timeout now env).state._response.total_sent
      + (AsyncPing.begin s0 addr count timeout now env).state.count_down = count.val := by
    rw [b1]; omega
  have j2 : ∀ f, (AsyncPing.begin s0 addr count timeout now env).state._on_recv = some f →
      ∀ r, f r = false := by rw [b6]; exact hcb
  obtain ⟨r1, r2⟩ := AsyncPing.quiet_run count.val hc evs _ j1 j2 hq
  refine ⟨r1, r2, ?_⟩
  intro r hr
  rw [AsyncPing.begin_ret_true_iff] at hb
  rw [AsyncPing.begin_accepted s0 addr count timeout now env hb.1 hb.2] at hr
  have quiet := AsyncPing.send_packet_no_callbacks (AsyncPing.armed s0 addr count timeout now) env
  have op : completions (AsyncPing.open_effects s0) = [] := by
    unfold AsyncPing.open_effects
    split <;> rfl
  rw [show completions (AsyncPing.open_effects s0
      ++ (AsyncPing.send_packet (AsyncPing.armed s0 addr count timeout now) env).effects)
      = completions (AsyncPing.open_effects s0)
        ++ completions (AsyncPing.send_packet (AsyncPing.armed s0 addr count timeout now) env).effects
      from AsyncPing.completions_append _ _, op, quiet.2] at hr
  cases hr

/-- C3 witness: on the sample object with both callbacks registered, a session of
three probes with no reply completes with `total_sent = 3`. -/
theorem total_sent_reaches_count_witness :
    (AsyncPing.begin sample_registered 5 3 1000 100 (send_ok 101)).ret = true ∧
    ((AsyncPing.run (AsyncPing.begin sample_registered 5 3 1000 100 (send_ok 101)).state
        silent_events).state._response.total_sent
      + (AsyncPing.run (AsyncPing.begin sample_registered 5 3 1000 100 (send_ok 101)).state
        silent_events).state.count_down = 3) ∧
    (∀ r ∈ completions
        (AsyncPing.run (AsyncPing.begin sample_registered 5 3 1000 100 (send_ok 101)).state
          silent_events).effects, r.total_sent = 3) ∧
    (completions
        (AsyncPing.run (AsyncPing.begin sample_registered 5 3 1000 100 (send_ok 101)).state
          silent_events).effects).length = 1 :=
  ⟨by decide,
   (total_sent_reaches_count sample_registered 5 3 1000 100 (send_ok 101) silent_events
      (by decide) (fun f hf r => by cases hf; rfl)
      ⟨trivial, trivial, trivial, trivial, trivial⟩).1,
   (total_sent_reaches_count sample_registered 5 3 1000 100 (send_ok 101) silent_events
      (by decide) (fun f hf r => by cases hf; rfl)
      ⟨trivial, trivial, trivial, trivial, trivial⟩).2.1,
   by decide⟩

/-! ## The shape of one event -/

namespace AsyncPing

/-- A handler either leaves the counters alone, sends the next probe, or finalises. -/
theorem handler_shape (s : AsyncPing) (h : Handler) (env : SendEnv) :
    Idle s (run_handler s h env).state ∨ Sent s (run_handler s h env).state env ∨
      Finalised s (run_handler s h env).state := by
  cases h with
  | _s_timer =>
    obtain ⟨a1, _, _, _, a5, _, _, a8⟩ := after_report_fields s
    by_cases hk : (after_report s).count_down = 0
    · refine Or.inr (Or.inr ?_)
      show Finalised s (timer s env).state
      rw [timer_finalises s env hk]
      obtain ⟨d1, d2, _, _, d5, _, _, _, _, _, _, _⟩ := done_finalised_fields s env
      unfold Finalised
      show (done (finalised s env)).state._response.total_sent = s._response.total_sent ∧
        (done (finalised s env)).state._response.total_recv = s._response.total_recv ∧
        (done (finalised s env)).state._response.icmp_seq = s._response.icmp_seq ∧
        (done (finalised s env)).state._response.answer = s._response.answer ∧
        (done (finalised s env)).state.ping_pcb = false ∧
        (done (finalised s env)).state.count_down = 0
      rw [d1, d2, d5]
      exact ⟨rfl, rfl, rfl, rfl, rfl, hk⟩
    · refine Or.inr (Or.inl ?_)
      show Sent s (timer s env).state env
      rw [timer_sends s env hk]
      obtain ⟨b1, b2, b3, _, _, b6, _, _, _, _, b11, _, _⟩ :=
        send_packet_fields (after_report s) env
      have b13 := send_packet_icmp_seq (after_report s) env
      have cd : (after_report s).count_down = s.count_down := by
        rcases a8 with h | h
        · exact h
        · exact absurd h hk
      unfold Sent
      show s.count_down ≠ 0 ∧
        (send_packet (after_report s) env).state._response.total_sent
          = u32 (s._response.total_sent + 1) ∧
        (send_packet (after_report s) env).state._response.total_recv
          = s._response.total_recv ∧
        (send_packet (after_report s) env).state._response.icmp_seq =
          (if env.alloc = Alloc.contiguous then next_seq s._response.icmp_seq
           else s._response.icmp_seq) ∧
        (send_packet (after_report s) env).state._response.answer = false ∧
        (send_packet (after_report s) env).state.ping_pcb = s.ping_pcb ∧
        (send_packet (after_report s) env).state.count_down = u8 (s.count_down + 255)
      rw [b2, b3, b6, b11, b13, a1, a5, cd]
      exact ⟨by rw [← cd]; exact hk, rfl, rfl, rfl, b1, rfl, rfl⟩
  | _s_timer_recv =>
    refine Or.inl ?_
    obtain ⟨a1, _, _, _, _, a6, _, a8, _, _⟩ := s_timer_recv_fields s
    unfold Idle
    show (_s_timer_recv s).state._response.total_sent = s._response.total_sent ∧
      (_s_timer_recv s).state._response.total_recv = s._response.total_recv ∧
      (_s_timer_recv s).state._response.icmp_seq = s._response.icmp_seq ∧
      (_s_timer_recv s).state._response.answer = s._response.answer ∧
      (_s_timer_recv s).state.ping_pcb = s.ping_pcb ∧
      ((_s_timer_recv s).state.count_down = s.count_down ∨
        (_s_timer_recv s).state.count_down = 0)
    rw [a1, a6]
    exact ⟨rfl, rfl, rfl, rfl, rfl, a8⟩

theorem idle_refl (s : AsyncPing) : Idle s s := ⟨rfl, rfl, rfl, rfl, rfl, Or.inl rfl⟩

/-- What a call of `begin` does to the counters. -/
theorem begin_shape (s : AsyncPing) (addr : Nat) (count : Fin 256) (timeout now : Nat)
    (env : SendEnv) :
    Idle s (begin s addr count timeout now env).state ∨
      Begun s (begin s addr count timeout now env).state := by
  cases hr : (begin s addr count timeout now env).ret with
  | false =>
    rw [begin_ret_false_iff] at hr
    rw [begin_rejected s addr count timeout now env hr]
    exact Or.inl (idle_refl s)
  | true =>
    obtain ⟨b1, b2, b3, b4, b5, _, b7⟩ := begin_counters s addr count timeout now env hr
    rw [begin_ret_true_iff] at hr
    have hc := count.isLt
    exact Or.inr ⟨hr.2, b1, b2, b5, b3, b7, by omega⟩

/-- Every event is of one of five shapes. -/
theorem step_shape (s : AsyncPing) (ev : Event) :
    Idle s (step s ev).state ∨ (ev.is_begin = true ∧ Begun s (step s ev).state) ∨
      (∃ p now arp, ev = Event.recv p now arp ∧ (ping_recv s p now arp).ret = 1 ∧
        Accepted s (step s ev).state) ∨
      (∃ env, (ev = Event.fire_timer env ∨ ev = Event.fire_timer_recv env) ∧
        Sent s (step s ev).state env) ∨
      Finalised s (step s ev).state := by
  cases ev with
  | begin addr count timeout now env =>
    rw [step_begin]
    rcases begin_shape s addr count timeout now env with h | h
    · exact Or.inl h
    · exact Or.inr (Or.inl ⟨rfl, h⟩)
  | begin_host resolved count timeout now env =>
    cases resolved with
    | none => exact Or.inl (idle_refl s)
    | some ip =>
      rw [step_begin_host_some, step_begin]
      rcases begin_shape s ip count timeout now env with h | h
      · exact Or.inl h
      · exact Or.inr (Or.inl ⟨rfl, h⟩)
  | set_on mode fn =>
    cases mode with
    | false => exact Or.inl ⟨rfl, rfl, rfl, rfl, rfl, Or.inl rfl⟩
    | true => exact Or.inl ⟨rfl, rfl, rfl, rfl, rfl, Or.inl rfl⟩
  | cancel => exact Or.inl ⟨rfl, rfl, rfl, rfl, rfl, Or.inr rfl⟩
  | recv p now arp =>
    cases hp : s.ping_pcb with
    | false =>
      have e : step s (Event.recv p now arp) = { state := s, effects := [] } := by
        simp [step, hp]
      rw [e]; exact Or.inl (idle_refl s)
    | true =>
      have e : step s (Event.recv p now arp) =
          { state := (ping_recv s p now arp).state, effects := (ping_recv s p now arp).effects } := by
        simp [step, hp]
      rw [e]
      cases hm : (p.hdr_ok && matches_probe s p) with
      | false =>
        rw [ping_recv_rejected s p now arp hm]
        exact Or.inl (idle_refl s)
      | true =>
        obtain ⟨a1, a2, a3, a4, _, _, a7, _, a9, _, _, _, _, _, _, _⟩ :=
          ping_recv_accepted_fields s p now arp hm
        exact Or.inr (Or.inr (Or.inl ⟨p, now, arp, rfl, ping_recv_ret_accepted s p now arp hm,
          hp, a3, a2, a4, a1, a9, a7⟩))
  | fire_timer env =>
    cases ht : s._timer with
    | none =>
      have e : step s (Event.fire_timer env) = { state := s, effects := [] } := by
        simp [step, ht]
      rw [e]; exact Or.inl (idle_refl s)
    | some h =>
      have e : step s (Event.fire_timer env) = run_handler s h env := by
        simp [step, ht]
      rw [e]
      rcases handler_shape s h env with k | k | k
      · exact Or.inl k
      · exact Or.inr (Or.inr (Or.inr (Or.inl ⟨env, Or.inl rfl, k⟩)))
      · exact Or.inr (Or.inr (Or.inr (Or.inr k)))
  | fire_timer_recv env =>
    cases ht : s._timer_recv with
    | none =>
      have e : step s (Event.fire_timer_recv env) = { state := s, effects := [] } := by
        simp [step, ht]
      rw [e]; exact Or.inl (idle_refl s)
    | some h =>
      have e : step s (Event.fire_timer_recv env) = run_handler s h env := by
        simp [step, ht]
      rw [e]
      rcases handler_shape s h env with k | k | k
      · exact Or.inl k
      · exact Or.inr (Or.inr (Or.inr (Or.inl ⟨env, Or.inr rfl, k⟩)))
      · exact Or.inr (Or.inr (Or.inr (Or.inr k)))

end AsyncPing

/-! ## Replies counted against probes sent -/

namespace AsyncPing

/-- One event that is not a repeated delivery keeps the counters consistent. -/
theorem consistent_step (s : AsyncPing) (ev : Event) (hi : Consistent s) (hn : NoRepeat s ev) :
    Consistent (step s ev).state := by
  obtain ⟨i1, i2, i3⟩ := hi
  unfold Consistent
  rcases step_shape s ev with k | ⟨_, k⟩ | ⟨p, now, arp, he, hret, k⟩ | ⟨env, _, k⟩ | k
  · obtain ⟨k1, k2, _, k4, k5, k6⟩ := k
    rw [k1, k2, k4, k5]
    refine ⟨i1, i2, ?_⟩
    rcases k6 with k6 | k6
    · rw [k6]; exact i3
    · intro h; exact absurd k6 h
  · obtain ⟨_, k2, k3, _, _, _, k7⟩ := k
    rw [k2, k3]
    exact ⟨by omega, fun _ _ => by omega, fun _ => by omega⟩
  · obtain ⟨k1, k2, k3, _, k5, _, k7⟩ := k
    subst he
    have ans : s._response.answer = false := hn k1 hret
    have lt := i2 k1 ans
    rw [k2, k3, k5, k7]
    refine ⟨?_, ?_, i3⟩
    · show (s._response.total_recv + 1) % 2 ^ 32 ≤ s._response.total_sent
      have := Nat.mod_le (s._response.total_recv + 1) (2 ^ 32)
      omega
    · intro _ h; cases h
  · obtain ⟨k1, k2, k3, _, _, _, k7⟩ := k
    have b := i3 k1
    rw [k2, k3, k7]
    refine ⟨?_, ?_, ?_⟩
    · show s._response.total_recv ≤ (s._response.total_sent + 1) % 2 ^ 32
      omega
    · intro _ _
      show s._response.total_recv < (s._response.total_sent + 1) % 2 ^ 32
      omega
    · intro _
      show (s._response.total_sent + 1) % 2 ^ 32 + (s.count_down + 255) % 2 ^ 8 ≤ 255
      omega
  · obtain ⟨k1, k2, _, _, k5, k6⟩ := k
    rw [k1, k2, k5, k6]
    exact ⟨i1, (fun h => Bool.noConfusion h), fun h => absurd rfl h⟩

/-- A run without repeated deliveries keeps the counters consistent. -/
theorem consistent_run (evs : List Event) (s : AsyncPing) (hi : Consistent s)
    (hn : NoRepeatRun s evs) : Consistent (run s evs).state := by
  induction evs generalizing s with
  | nil => exact hi
  | cons ev rest ih =>
    rw [run_cons]
    exact ih (step s ev).state (consistent_step s ev hi hn.1) hn.2

end AsyncPing

/-- C4 (as the code has it): from a new object whose response record starts with
`total_recv ≤ total_sent`, every sequence of `begin`, callback registration,
`cancel`, inbound packets and timer fires in which a matching reply is
delivered only while `answer` is false ends in a state with
`total_recv ≤ total_sent`. -/
theorem total_recv_le_total_sent_without_repeats (id : Nat) (r0 : AsyncPingResponse)
    (target sent start : Nat) (evs : List Event) (h0 : r0.total_recv ≤ r0.total_sent)
    (hn : AsyncPing.NoRepeatRun (AsyncPing.fresh id r0 target sent start) evs) :
    (AsyncPing.run (AsyncPing.fresh id r0 target sent start) evs).state._response.total_recv
      ≤ (AsyncPing.run (AsyncPing.fresh id r0 target sent start) evs).state._response.total_sent :=
  (AsyncPing.consistent_run evs (AsyncPing.fresh id r0 target sent start)
    ⟨h0, (fun h => Bool.noConfusion h), fun h => absurd rfl h⟩ hn).1

/-- C4 witness: three probes, two of them answered once each. -/
theorem total_recv_le_total_sent_without_repeats_witness :
    zero_response.total_recv ≤ zero_response.total_sent ∧
    (AsyncPing.run (AsyncPing.fresh 7 zero_response 0 0 0) single_reply_events).state._response.total_recv
      ≤ (AsyncPing.run (AsyncPing.fresh 7 zero_response 0 0 0) single_reply_events).state._response.total_sent :=
  ⟨by decide,
   total_recv_le_total_sent_without_repeats 7 zero_response 0 0 0 single_reply_events (by decide)
     ⟨trivial, fun _ _ => by decide, trivial, fun _ _ => by decide, trivial, trivial, trivial⟩⟩

/-- C4 counterexample: the reply to probe 1 delivered twice is accepted twice, and
`total_recv = 2` exceeds `total_sent = 1`. -/
theorem repeated_reply_overcounts :
    ¬ ((AsyncPing.run sample_fresh repeated_reply_events).state._response.total_recv
      ≤ (AsyncPing.run sample_fresh repeated_reply_events).state._response.total_sent) := by
  decide

/-! ## The sequence counter within a session -/

namespace AsyncPing

/-- Below the ceiling, `next_seq` is the successor. -/
theorem next_seq_small (seq : Nat) (h : seq + 1 < 0x7fff) : next_seq seq = seq + 1 := by
  unfold next_seq u16
  have e : (seq + 1) % 2 ^ 16 = seq + 1 := by omega
  rw [e, if_neg (by omega)]

/-- Once `begin` has gone ahead, the sequence counter never exceeds the number of
probes sent, and the probes sent and still to send never exceed 255. -/
theorem session_bounds (s : AsyncPing) (h : InSession s) :
    s._response.icmp_seq ≤ s._response.total_sent ∧
    s._response.total_sent + s.count_down ≤ 255 := by
  induction h with
  | start s0 addr count timeout now env hb =>
    obtain ⟨b1, _, _, b4, b5, _, _⟩ := begin_counters s0 addr count timeout now env hb
    have hc := count.isLt
    rw [b1]
    exact ⟨b5, by omega⟩
  | next s ev _ ih =>
    obtain ⟨i1, i2⟩ := ih
    rcases step_shape s ev with k | ⟨_, k⟩ | ⟨_, _, _, _, _, k⟩ | ⟨env, _, k⟩ | k
    · obtain ⟨k1, _, k3, _, _, k6⟩ := k
      rw [k1, k3]
      refine ⟨i1, ?_⟩
      rcases k6 with k6 | k6 <;> rw [k6] <;> omega
    · obtain ⟨_, k2, _, k4, _, _, k7⟩ := k
      rw [k2]
      exact ⟨k4, by omega⟩
    · obtain ⟨_, k2, _, k4, _, _, k7⟩ := k
      rw [k2, k4, k7]
      exact ⟨i1, i2⟩
    · obtain ⟨k1, k2, _, k4, _, _, k7⟩ := k
      rw [k2, k4, k7]
      have small : s._response.icmp_seq + 1 < 0x7fff := by omega
      rw [next_seq_small _ small]
      constructor
      · show (if env.alloc = Alloc.contiguous then s._response.icmp_seq + 1
          else s._response.icmp_seq) ≤ (s._response.total_sent + 1) % 2 ^ 32
        split <;> omega
      · show (s._response.total_sent + 1) % 2 ^ 32 + (s.count_down + 255) % 2 ^ 8 ≤ 255
        omega
    · obtain ⟨k1, _, k3, _, _, k6⟩ := k
      rw [k1, k3, k6]
      exact ⟨i1, by omega⟩

end AsyncPing

/-- C10 (as the code has it): within one session (after a `begin` that went ahead, under
any event that is not another `begin`) an event either sends no probe and leaves
`icmp_seq` alone, or it is a timer fire that sends one probe, and then `icmp_seq`
is one more than before if the packet buffer was obtained as one contiguous
segment, and the same as before if it was not. -/
theorem sequence_advances_with_each_built_probe (s : AsyncPing) (hs : AsyncPing.InSession s)
    (ev : Event) (hev : ev.is_begin = false) :
    ((AsyncPing.step s ev).state._response.total_sent = s._response.total_sent ∧
      (AsyncPing.step s ev).state._response.icmp_seq = s._response.icmp_seq) ∨
    (∃ env, (ev = Event.fire_timer env ∨ ev = Event.fire_timer_recv env) ∧
      (AsyncPing.step s ev).state._response.total_sent = s._response.total_sent + 1 ∧
      (AsyncPing.step s ev).state._response.icmp_seq =
        (if env.alloc = Alloc.contiguous then s._response.icmp_seq + 1
         else s._response.icmp_seq)) := by
  obtain ⟨i1, i2⟩ := AsyncPing.session_bounds s hs
  rcases AsyncPing.step_shape s ev with k | ⟨b, _⟩ | ⟨_, _, _, _, _, k⟩ | ⟨env, he, k⟩ | k
  · exact Or.inl ⟨k.1, k.2.2.1⟩
  · rw [hev] at b; cases b
  · exact Or.inl ⟨k.2.1, k.2.2.2.1⟩
  · obtain ⟨k1, k2, _, k4, _, _, _⟩ := k
    refine Or.inr ⟨env, he, ?_, ?_⟩
    · rw [k2]
      show (s._response.total_sent + 1) % 2 ^ 32 = s._response.total_sent + 1
      omega
    · rw [k4, AsyncPing.next_seq_small _ (by omega)]
  · exact Or.inl ⟨k.1, k.2.2.1⟩

/-- C10 witness: with probe 1 of three in flight, the deadline fire that sends probe 2
with a buffer at hand moves `icmp_seq` from 1 to 2. -/
theorem sequence_advances_with_each_built_probe_witness :
    AsyncPing.InSession first_probe_in_flight ∧
    (Event.fire_timer (send_ok 1100)).is_begin = false ∧
    (AsyncPing.step first_probe_in_flight (Event.fire_timer (send_ok 1100))).state._response.icmp_seq
      = 2 ∧
    (((AsyncPing.step first_probe_in_flight
          (Event.fire_timer (send_ok 1100))).state._response.total_sent
        = first_probe_in_flight._response.total_sent ∧
      (AsyncPing.step first_probe_in_flight
          (Event.fire_timer (send_ok 1100))).state._response.icmp_seq
        = first_probe_in_flight._response.icmp_seq) ∨
    (∃ env, (Event.fire_timer (send_ok 1100) = Event.fire_timer env ∨
        Event.fire_timer (send_ok 1100) = Event.fire_timer_recv env) ∧
      (AsyncPing.step first_probe_in_flight
          (Event.fire_timer (send_ok 1100))).state._response.total_sent
        = first_probe_in_flight._response.total_sent + 1 ∧
      (AsyncPing.step first_probe_in_flight
          (Event.fire_timer (send_ok 1100))).state._response.icmp_seq =
        (if env.alloc = Alloc.contiguous then first_probe_in_flight._response.icmp_seq + 1
         else first_probe_in_flight._response.icmp_seq))) :=
  ⟨AsyncPing.InSession.start sample_fresh 5 3 1000 100 (send_ok 101) (by decide),
   rfl,
   by decide,
   sequence_advances_with_each_built_probe first_probe_in_flight
     (AsyncPing.InSession.start sample_fresh 5 3 1000 100 (send_ok 101) (by decide))
     (Event.fire_timer (send_ok 1100)) rfl⟩

/-- C10 counterexample: with probe 1 of three in flight, the deadline fire that sends
probe 2 while no packet buffer can be obtained counts the probe as sent but
leaves `icmp_seq` at 1, so probe 2 is matched against the sequence value of
probe 1: a late reply to probe 1 is accepted as the answer to probe 2. -/
theorem sequence_not_advanced_without_buffer :
    first_probe_in_flight._response.total_sent = 1 ∧
    (AsyncPing.step first_probe_in_flight
      (Event.fire_timer (send_null 1100))).state._response.total_sent = 2 ∧
    ¬ (first_probe_in_flight._response.icmp_seq <
      (AsyncPing.step first_probe_in_flight
        (Event.fire_timer (send_null 1100))).state._response.icmp_seq) ∧
    (AsyncPing.ping_recv (AsyncPing.step first_probe_in_flight
      (Event.fire_timer (send_null 1100))).state (echo_reply 7 1) 1200 none).ret = 1 := by
  decide

/-! ## `cancel` -/

/-- C13: `cancel` is idempotent, leaves `count_down` at 0 and every other member
(identifier, handle, callbacks, response record, target, clock marks, both
timers) as it was; the call invokes no callback and detaches no timer (it makes
no call to the outside world at all). -/
theorem cancel_is_idempotent_and_local (s : AsyncPing) :
    AsyncPing.cancel (AsyncPing.cancel s) = AsyncPing.cancel s ∧
    (AsyncPing.cancel s).count_down = 0 ∧
    (AsyncPing.cancel s).ping_id = s.ping_id ∧
    (AsyncPing.cancel s).ping_pcb = s.ping_pcb ∧
    (AsyncPing.cancel s)._on_recv = s._on_recv ∧
    (AsyncPing.cancel s)._on_sent = s._on_sent ∧
    (AsyncPing.cancel s)._response = s._response ∧
    (AsyncPing.cancel s).ping_target = s.ping_target ∧
    (AsyncPing.cancel s).ping_sent = s.ping_sent ∧
    (AsyncPing.cancel s).ping_start = s.ping_start ∧
    (AsyncPing.cancel s)._timer = s._timer ∧
    (AsyncPing.cancel s)._timer_recv = s._timer_recv ∧
    (AsyncPing.step s Event.cancel).state = AsyncPing.cancel s ∧
    (AsyncPing.step s Event.cancel).effects = [] :=
  ⟨rfl, rfl, rfl, rfl, rfl, rfl, rfl, rfl, rfl, rfl, rfl, rfl, rfl, rfl⟩

/-! ## The packet builder -/

namespace AsyncPing

/-- The sequence value left by `ping_prepare_echo` fits 16 bits and is never the
ceiling. -/
theorem next_seq_range (seq : Nat) : next_seq seq < 65536 ∧ next_seq seq ≠ 0x7fff := by
  unfold next_seq u16
  split
  · exact ⟨by decide, by decide⟩
  · rename_i h
    exact ⟨Nat.mod_lt _ (by decide), h⟩

/-- The bytes of `htons x` in memory are `x` in network byte order: high byte first. -/
theorem store16_htons (x : Nat) (h : x < 65536) : store16 (htons x) = [x / 256, x % 256] := by
  unfold store16 htons
  have hlo : x % 256 < 256 := Nat.mod_lt _ (by decide)
  have hhi : x / 256 < 256 := by omega
  generalize x % 256 = lo at hlo ⊢
  generalize x / 256 = hi at hhi ⊢
  have a : (lo * 256 + hi % 256) % 256 = hi := by omega
  have b : (lo * 256 + hi % 256) / 256 % 256 = lo := by omega
  rw [a, b]

/-- The checksum is a 16-bit value. -/
theorem inet_chksum_lt (buf : List Nat) (len : Nat) : inet_chksum buf len < 65536 := by
  unfold inet_chksum
  omega

/-- The buffer before the checksum is stored, byte by byte. -/
theorem echo_unsummed_bytes (id seq len : Nat) (h : seq < 65536) :
    echo_unsummed id seq len =
      [ICMP_ECHO, 0, 0, 0, u16 id % 256, u16 id / 256 % 256, seq / 256, seq % 256]
        ++ (List.range (len - sizeof_icmp_echo_hdr)).map (fun i => i % 256) := by
  unfold echo_unsummed
  rw [store16_htons seq h]
  rfl

/-- The finished packet, byte by byte. -/
theorem echo_packet_bytes (id seq len : Nat) (h : seq < 65536) :
    echo_packet id seq len =
      [ICMP_ECHO, 0, inet_chksum (echo_unsummed id seq len) len % 256,
        inet_chksum (echo_unsummed id seq len) len / 256 % 256,
        u16 id % 256, u16 id / 256 % 256, seq / 256, seq % 256]
        ++ (List.range (len - sizeof_icmp_echo_hdr)).map (fun i => i % 256) := by
  unfold echo_packet
  simp only []
  generalize inet_chksum (echo_unsummed id seq len) len = c
  rw [echo_unsummed_bytes id seq len h]
  rfl

/-- Setting the checksum field of the finished packet to zero gives back the buffer
the checksum was computed over. -/
theorem zero_chksum_echo_packet (id seq len : Nat) (h : seq < 65536) :
    zero_chksum (echo_packet id seq len) = echo_unsummed id seq len := by
  rw [echo_packet_bytes id seq len h, echo_unsummed_bytes id seq len h]
  rfl

/-- The filler bytes of the finished packet. -/
theorem echo_packet_payload (id seq len : Nat) (h : seq < 65536) (i : Nat)
    (hi : i < len - sizeof_icmp_echo_hdr) :
    (echo_packet id seq len).getD (8 + i) 0 = i % 256 := by
  rw [echo_packet_bytes id seq len h]
  rw [List.getD_eq_getElem?_getD, List.getElem?_append_right (by simp)]
  simp [hi]

end AsyncPing

namespace AsyncPing

/-- A 16-bit value stored at bytes 2 and 3 reads back. -/
theorem load16_at_2 (a b c : Nat) (rest : List Nat) (hc : c < 65536) :
    load16 (a :: b :: (c % 256) :: (c / 256 % 256) :: rest) 2 = c := by
  show c % 256 + 256 * (c / 256 % 256) = c
  omega

end AsyncPing

/-- C11: whenever `ping_send` obtains a contiguous buffer it hands exactly one packet
to the raw transport, and that packet is 64 bytes long (the value of
`sizeof(struct icmp_echo_hdr) + PING_DATA_SIZE`, 8 header bytes and 56 payload
bytes), has type `ICMP_ECHO`, code 0, identifier field `ping_id` (as a 16-bit
value), sequence field the advanced `icmp_seq` in network byte order, payload
byte `i` equal to `i mod 256` for `i` in 0..55, and checksum field equal to
`inet_chksum` of the same 64 bytes with the checksum field zero. -/
theorem echo_request_layout (s : AsyncPing) (env : SendEnv)
    (h : env.alloc = Alloc.contiguous) :
    ∃ pkt, packets_sent (AsyncPing.ping_send s env).effects = [pkt] ∧
      (AsyncPing.ping_send s env).state._response.size = 64 ∧
      ping_size = sizeof_icmp_echo_hdr + 56 ∧
      pkt.length = 64 ∧
      pkt.getD 0 0 = ICMP_ECHO ∧
      pkt.getD 1 0 = 0 ∧
      load16 pkt 4 = u16 s.ping_id ∧
      (s.ping_id < 65536 → load16 pkt 4 = s.ping_id) ∧
      (AsyncPing.ping_send s env).state._response.icmp_seq
        = AsyncPing.next_seq s._response.icmp_seq ∧
      net16 pkt 6 = (AsyncPing.ping_send s env).state._response.icmp_seq ∧
      load16 pkt 6 = htons (AsyncPing.ping_send s env).state._response.icmp_seq ∧
      (∀ i, i < 56 → pkt.getD (8 + i) 0 = i % 256) ∧
      load16 pkt 2 = inet_chksum (zero_chksum pkt) 64 ∧
      (zero_chksum pkt).length = 64 ∧
      load16 (zero_chksum pkt) 2 = 0 := by
  obtain ⟨r1, r2⟩ := AsyncPing.next_seq_range s._response.icmp_seq
  have hsz : u16 ping_size = 64 := by decide
  have hst : (AsyncPing.ping_send s env).state._response.icmp_seq
      = AsyncPing.next_seq s._response.icmp_seq := by
    simp [AsyncPing.ping_send, h, AsyncPing.ping_prepare_echo]
  refine ⟨AsyncPing.echo_packet s.ping_id (AsyncPing.next_seq s._response.icmp_seq) 64,
    ?_, ?_, by decide, ?_, ?_, ?_, ?_, ?_, hst, ?_, ?_, ?_, ?_, ?_, ?_⟩
  · simp [AsyncPing.ping_send, h, AsyncPing.ping_prepare_echo, packets_sent, hsz]
  · simp [AsyncPing.ping_send, h, AsyncPing.ping_prepare_echo]
    decide
  · rw [AsyncPing.echo_packet_bytes _ _ _ r1]
    simp [sizeof_icmp_echo_hdr]
  · rw [AsyncPing.echo_packet_bytes _ _ _ r1]; rfl
  · rw [AsyncPing.echo_packet_bytes _ _ _ r1]; rfl
  · rw [AsyncPing.echo_packet_bytes _ _ _ r1]
    show u16 s.ping_id % 256 + 256 * (u16 s.ping_id / 256 % 256) = u16 s.ping_id
    have : u16 s.ping_id < 65536 := Nat.mod_lt _ (by decide)
    omega
  · intro hid
    rw [AsyncPing.echo_packet_bytes _ _ _ r1]
    show u16 s.ping_id % 256 + 256 * (u16 s.ping_id / 256 % 256) = s.ping_id
    have e : u16 s.ping_id = s.ping_id := Nat.mod_eq_of_lt hid
    rw [e]
    omega
  · rw [hst, AsyncPing.echo_packet_bytes _ _ _ r1]
    show 256 * (AsyncPing.next_seq s._response.icmp_seq / 256)
      + AsyncPing.next_seq s._response.icmp_seq % 256 = AsyncPing.next_seq s._response.icmp_seq
    omega
  · rw [hst, AsyncPing.echo_packet_bytes _ _ _ r1]
    show AsyncPing.next_seq s._response.icmp_seq / 256
      + 256 * (AsyncPing.next_seq s._response.icmp_seq % 256)
      = htons (AsyncPing.next_seq s._response.icmp_seq)
    unfold htons
    have : AsyncPing.next_seq s._response.icmp_seq / 256 < 256 := by omega
    omega
  · intro i hi
    exact AsyncPing.echo_packet_payload _ _ _ r1 i (by simpa [sizeof_icmp_echo_hdr] using hi)
  · rw [AsyncPing.zero_chksum_echo_packet _ _ _ r1, AsyncPing.echo_packet_bytes _ _ _ r1]
    simp only [List.cons_append]
    exact AsyncPing.load16_at_2 _ _ _ _ (AsyncPing.inet_chksum_lt _ _)
  · rw [AsyncPing.zero_chksum_echo_packet _ _ _ r1, AsyncPing.echo_unsummed_bytes _ _ _ r1]
    simp [sizeof_icmp_echo_hdr]
  · rw [AsyncPing.zero_chksum_echo_packet _ _ _ r1, AsyncPing.echo_unsummed_bytes _ _ _ r1]
    rfl

/-- C11 witness: the first probe of the sample session is the 64-byte echo request
with identifier 7 and sequence 1. -/
theorem echo_request_layout_witness :
    (send_ok 101).alloc = Alloc.contiguous ∧
    ∃ pkt, packets_sent (AsyncPing.ping_send sample_fresh (send_ok 101)).effects = [pkt] ∧
      (AsyncPing.ping_send sample_fresh (send_ok 101)).state._response.size = 64 ∧
      ping_size = sizeof_icmp_echo_hdr + 56 ∧
      pkt.length = 64 ∧
      pkt.getD 0 0 = ICMP_ECHO ∧
      pkt.getD 1 0 = 0 ∧
      load16 pkt 4 = u16 sample_fresh.ping_id ∧
      (sample_fresh.ping_id < 65536 → load16 pkt 4 = sample_fresh.ping_id) ∧
      (AsyncPing.ping_send sample_fresh (send_ok 101)).state._response.icmp_seq
        = AsyncPing.next_seq sample_fresh._response.icmp_seq ∧
      net16 pkt 6 = (AsyncPing.ping_send sample_fresh (send_ok 101)).state._response.icmp_seq ∧
      load16 pkt 6 = htons (AsyncPing.ping_send sample_fresh (send_ok 101)).state._response.icmp_seq ∧
      (∀ i, i < 56 → pkt.getD (8 + i) 0 = i % 256) ∧
      load16 pkt 2 = inet_chksum (zero_chksum pkt) 64 ∧
      (zero_chksum pkt).length = 64 ∧
      load16 (zero_chksum pkt) 2 = 0 :=
  ⟨rfl, echo_request_layout sample_fresh (send_ok 101) rfl⟩

/-- C16: for a 16-bit sequence counter `icmp_seq`, `ping_prepare_echo` leaves the
counter at 0 if `icmp_seq + 1` is the ceiling `0x7fff` and at
`(icmp_seq + 1) mod 2^16` otherwise, writes that new value into the sequence
field of the packet in network byte order (the field reads as `htons` of it),
and never leaves the counter at `0x7fff`. -/
theorem ping_prepare_echo_sequence (s : AsyncPing) (len : Nat)
    (h : s._response.icmp_seq < 2 ^ 16) :
    (AsyncPing.ping_prepare_echo s len).1._response.icmp_seq =
      (if s._response.icmp_seq + 1 = 0x7fff then 0 else (s._response.icmp_seq + 1) % 2 ^ 16) ∧
    net16 (AsyncPing.ping_prepare_echo s len).2 6
      = (AsyncPing.ping_prepare_echo s len).1._response.icmp_seq ∧
    load16 (AsyncPing.ping_prepare_echo s len).2 6
      = htons (AsyncPing.ping_prepare_echo s len).1._response.icmp_seq ∧
    (AsyncPing.ping_prepare_echo s len).1._response.icmp_seq ≠ 0x7fff := by
  obtain ⟨r1, r2⟩ := AsyncPing.next_seq_range s._response.icmp_seq
  have hst : (AsyncPing.ping_prepare_echo s len).1._response.icmp_seq
      = AsyncPing.next_seq s._response.icmp_seq := rfl
  have hpk : (AsyncPing.ping_prepare_echo s len).2
      = AsyncPing.echo_packet s.ping_id (AsyncPing.next_seq s._response.icmp_seq) len := rfl
  rw [hst, hpk, AsyncPing.echo_packet_bytes _ _ _ r1]
  refine ⟨?_, ?_, ?_, r2⟩
  · unfold AsyncPing.next_seq u16
    by_cases c : s._response.icmp_seq + 1 = 0x7fff
    · rw [if_pos c, c]; rfl
    · rw [if_neg c, if_neg (by omega)]
  · show 256 * (AsyncPing.next_seq s._response.icmp_seq / 256)
      + AsyncPing.next_seq s._response.icmp_seq % 256 = AsyncPing.next_seq s._response.icmp_seq
    omega
  · show AsyncPing.next_seq s._response.icmp_seq / 256
      + 256 * (AsyncPing.next_seq s._response.icmp_seq % 256)
      = htons (AsyncPing.next_seq s._response.icmp_seq)
    unfold htons
    have : AsyncPing.next_seq s._response.icmp_seq / 256 < 256 := by omega
    omega

/-- C16 witness: one step below the ceiling the counter wraps to 0, and from 1 it
goes to 2. -/
theorem ping_prepare_echo_sequence_witness :
    near_ceiling._response.icmp_seq < 2 ^ 16 ∧
    (AsyncPing.ping_prepare_echo near_ceiling 64).1._response.icmp_seq = 0 ∧
    (AsyncPing.ping_prepare_echo first_probe_in_flight 64).1._response.icmp_seq = 2 :=
  ⟨by decide,
   (ping_prepare_echo_sequence near_ceiling 64 (by decide)).1.trans (by decide),
   (ping_prepare_echo_sequence first_probe_in_flight 64 (by decide)).1.trans (by decide)⟩

/-! ## What an accepted reply records -/

namespace AsyncPing

/-- A return value of 1 means the acceptance test passed. -/
theorem ping_recv_ret_one (s : AsyncPing) (p : InPacket) (now : Nat) (arp : Option Nat)
    (h : (ping_recv s p now arp).ret = 1) : (p.hdr_ok && matches_probe s p) = true := by
  cases hm : (p.hdr_ok && matches_probe s p) with
  | true => rfl
  | false =>
    rw [ping_recv_rejected s p now arp hm] at h
    cases h

end AsyncPing

/-- C19: `answer` is false right after every `send_packet`; an event turns it from
false to true only if it is a packet handed to `ping_recv` and accepted; an
event turns it from true to false only if it runs `send_packet` (a `begin` that
goes ahead, or a timer fire whose `timer` sends the next probe).  In particular
`cancel`, callback registration, every packet delivered while `answer` is true,
and every event that sends no probe leave a true `answer` true. -/
theorem answer_set_by_accept_reset_by_send (s : AsyncPing) (ev : Event) :
    (∀ env, (AsyncPing.send_packet s env).state._response.answer = false) ∧
    (s._response.answer = false → (AsyncPing.step s ev).state._response.answer = true →
      ∃ p now arp, ev = Event.recv p now arp ∧ s.ping_pcb = true ∧
        (AsyncPing.ping_recv s p now arp).ret = 1) ∧
    (s._response.answer = true → (AsyncPing.step s ev).state._response.answer = false →
      ((ev.is_begin = true ∧ AsyncPing.Begun s (AsyncPing.step s ev).state) ∨
        ∃ env, (ev = Event.fire_timer env ∨ ev = Event.fire_timer_recv env) ∧
          AsyncPing.Sent s (AsyncPing.step s ev).state env)) ∧
    (s._response.answer = true →
      (AsyncPing.step s Event.cancel).state._response.answer = true ∧
      (∀ mode fn, (AsyncPing.step s (Event.set_on mode fn)).state._response.answer = true) ∧
      (∀ p now arp, (AsyncPing.step s (Event.recv p now arp)).state._response.answer = true) ∧
      ((AsyncPing.step s ev).state._response.total_sent = s._response.total_sent →
        ev.is_begin = false → (AsyncPing.step s ev).state._response.answer = true)) := by
  have shape := AsyncPing.step_shape s ev
  refine ⟨fun env => (AsyncPing.send_packet_fields s env).1, ?_, ?_, ?_⟩
  · intro h0 h1
    rcases shape with k | ⟨_, k⟩ | ⟨p, now, arp, he, hret, k⟩ | ⟨env, _, k⟩ | k
    · rw [k.2.2.2.1, h0] at h1; cases h1
    · rw [k.2.2.2.2.1] at h1; cases h1
    · exact ⟨p, now, arp, he, k.1, hret⟩
    · rw [k.2.2.2.2.1] at h1; cases h1
    · rw [k.2.2.2.1, h0] at h1; cases h1
  · intro h0 h1
    rcases shape with k | ⟨b, k⟩ | ⟨_, _, _, _, _, k⟩ | ⟨env, he, k⟩ | k
    · rw [k.2.2.2.1, h0] at h1; cases h1
    · exact Or.inl ⟨b, k⟩
    · rw [k.2.2.2.2.1] at h1; cases h1
    · exact Or.inr ⟨env, he, k⟩
    · rw [k.2.2.2.1, h0] at h1; cases h1
  · intro h0
    refine ⟨h0, ?_, ?_, ?_⟩
    · intro mode fn
      cases mode <;> exact h0
    · intro p now arp
      rcases AsyncPing.step_shape s (Event.recv p now arp) with
        k | ⟨b, _⟩ | ⟨_, _, _, _, _, k⟩ | ⟨env, he, _⟩ | k
      · rw [k.2.2.2.1]; exact h0
      · cases b
      · exact k.2.2.2.2.1
      · rcases he with he | he <;> cases he
      · rw [k.2.2.2.1]; exact h0
    · intro hsent hnb
      rcases shape with k | ⟨b, _⟩ | ⟨_, _, _, _, _, k⟩ | ⟨env, _, k⟩ | k
      · rw [k.2.2.2.1]; exact h0
      · rw [hnb] at b; cases b
      · exact k.2.2.2.2.1
      · exfalso
        have e := k.2.1
        rw [hsent] at e
        unfold u32 at e
        have := Nat.mod_lt (s._response.total_sent + 1) (show 0 < 2 ^ 32 by decide)
        omega
      · rw [k.2.2.2.1]; exact h0

/-- C19 witness: with probe 1 in flight the reply to probe 1 is what sets `answer`. -/
theorem answer_set_by_accept_reset_by_send_witness :
    first_probe_in_flight._response.answer = false ∧
    (AsyncPing.step first_probe_in_flight
      (Event.recv (echo_reply 7 1) 110 none)).state._response.answer = true ∧
    ∃ p now arp, Event.recv (echo_reply 7 1) 110 none = Event.recv p now arp ∧
      first_probe_in_flight.ping_pcb = true ∧
      (AsyncPing.ping_recv first_probe_in_flight p now arp).ret = 1 :=
  ⟨by decide, by decide,
   (answer_set_by_accept_reset_by_send first_probe_in_flight
      (Event.recv (echo_reply 7 1) 110 none)).2.1 (by decide) (by decide)⟩

/-! ## The sequence counter stays far below the ceiling -/

namespace AsyncPing

/-- Any run from a state of an object that has begun ends in such a state. -/
theorem in_session_run (evs : List Event) (s : AsyncPing) (h : InSession s) :
    InSession (run s evs).state := by
  induction evs generalizing s with
  | nil => exact h
  | cons ev rest ih =>
    rw [run_cons]
    exact ih (step s ev).state (InSession.next s ev h)

end AsyncPing

/-- C20: in every state reached from a new object by any events, then a `begin` that
goes ahead, then any further events, `icmp_seq ≤ total_sent ≤ 255`; hence the
incremented counter is not `0x7fff`, and `ping_prepare_echo` run in that state
(or in the state a later `begin` resets the counter to) does not take its
wrap-to-zero branch: it leaves `icmp_seq + 1`. -/
theorem sequence_stays_below_ceiling (id : Nat) (r0 : AsyncPingResponse)
    (target sent start : Nat) (pre : List Event) (addr : Nat) (count : Fin 256)
    (timeout now : Nat) (env : SendEnv) (post : List Event)
    (hb : (AsyncPing.begin (AsyncPing.run (AsyncPing.fresh id r0 target sent start) pre).state
      addr count timeout now env).ret = true) :
    (AsyncPing.run (AsyncPing.begin
        (AsyncPing.run (AsyncPing.fresh id r0 target sent start) pre).state
        addr count timeout now env).state post).state._response.icmp_seq
      ≤ (AsyncPing.run (AsyncPing.begin
        (AsyncPing.run (AsyncPing.fresh id r0 target sent start) pre).state
        addr count timeout now env).state post).state._response.total_sent ∧
    (AsyncPing.run (AsyncPing.begin
        (AsyncPing.run (AsyncPing.fresh id r0 target sent start) pre).state
        addr count timeout now env).state post).state._response.total_sent ≤ 255 ∧
    u16 ((AsyncPing.run (AsyncPing.begin
        (AsyncPing.run (AsyncPing.fresh id r0 target sent start) pre).state
        addr count timeout now env).state post).state._response.icmp_seq + 1) ≠ 0x7fff ∧
    (∀ len, (AsyncPing.ping_prepare_echo (AsyncPing.run (AsyncPing.begin
        (AsyncPing.run (AsyncPing.fresh id r0 target sent start) pre).state
        addr count timeout now env).state post).state len).1._response.icmp_seq
      = (AsyncPing.run (AsyncPing.begin
        (AsyncPing.run (AsyncPing.fresh id r0 target sent start) pre).state
        addr count timeout now env).state post).state._response.icmp_seq + 1) ∧
    (∀ a c t n len, (AsyncPing.ping_prepare_echo (AsyncPing.armed (AsyncPing.run (AsyncPing.begin
        (AsyncPing.run (AsyncPing.fresh id r0 target sent start) pre).state
        addr count timeout now env).state post).state a c t n) len).1._response.icmp_seq = 1) := by
  have hs := AsyncPing.in_session_run post _
    (AsyncPing.InSession.start _ addr count timeout now env hb)
  obtain ⟨b1, b2⟩ := AsyncPing.session_bounds _ hs
  refine ⟨b1, by omega, ?_, ?_, ?_⟩
  · unfold u16
    omega
  · intro len
    exact AsyncPing.next_seq_small _ (by omega)
  · intro a c t n len
    rfl

/-- C20 witness: the sample session of three unanswered probes, run to completion. -/
theorem sequence_stays_below_ceiling_witness :
    (AsyncPing.begin (AsyncPing.run (AsyncPing.fresh 7 zero_response 0 0 0) []).state
      5 3 1000 100 (send_ok 101)).ret = true ∧
    (AsyncPing.run (AsyncPing.begin
        (AsyncPing.run (AsyncPing.fresh 7 zero_response 0 0 0) []).state
        5 3 1000 100 (send_ok 101)).state silent_events).state._response.icmp_seq
      ≤ (AsyncPing.run (AsyncPing.begin
        (AsyncPing.run (AsyncPing.fresh 7 zero_response 0 0 0) []).state
        5 3 1000 100 (send_ok 101)).state silent_events).state._response.total_sent ∧
    (AsyncPing.run (AsyncPing.begin
        (AsyncPing.run (AsyncPing.fresh 7 zero_response 0 0 0) []).state
        5 3 1000 100 (send_ok 101)).state silent_events).state._response.total_sent ≤ 255 :=
  ⟨by decide,
   (sequence_stays_below_ceiling 7 zero_response 0 0 0 [] 5 3 1000 100 (send_ok 101)
      silent_events (by decide)).1,
   (sequence_stays_below_ceiling 7 zero_response 0 0 0 [] 5 3 1000 100 (send_ok 101)
      silent_events (by decide)).2.1⟩

/-! ## The period of the deadline timer -/

namespace AsyncPing

/-- Every `send_packet` attaches `_timer` with a period of one second. -/
theorem send_packet_attaches (s : AsyncPing) (env : SendEnv) :
    attaches (send_packet s env).effects = [(TickerId._timer, 1000, Handler._s_timer)] := by
  rcases env with ⟨a, n⟩
  cases a <;> simp [send_packet, ping_send, ping_prepare_echo, attaches]

/-- The calls made by `send_packet` do not depend on the stored timeout. -/
theorem send_packet_effects_ignore_timeout (s : AsyncPing) (env : SendEnv) (t : Nat) :
    (send_packet { s with _response := { s._response with timeout := t } } env).effects
      = (send_packet s env).effects := by
  rcases env with ⟨a, n⟩
  cases a <;> simp [send_packet, ping_send, ping_prepare_echo]

end AsyncPing

/-- C12: the period `send_packet` attaches the deadline timer with is the constant
one second (1000 ms), whatever timeout the session was begun with: the timeout
is stored in the response record and used nowhere, and two calls of `begin`
that differ only in the timeout make exactly the same calls, `attach` included.
On the sample object `begin(5, 3, 5000)` stores 5000 and attaches `_timer` with
1000 ms. -/
theorem deadline_period_ignores_timeout (s : AsyncPing) (addr : Nat) (count : Fin 256)
    (t1 t2 now : Nat) (env : SendEnv) :
    (AsyncPing.begin s addr count t1 now env).effects
      = (AsyncPing.begin s addr count t2 now env).effects ∧
    attaches (AsyncPing.send_packet s env).effects
      = [(TickerId._timer, 1000, Handler._s_timer)] ∧
    (AsyncPing.begin sample_fresh 5 3 5000 100 (send_ok 101)).ret = true ∧
    (AsyncPing.begin sample_fresh 5 3 5000 100 (send_ok 101)).state._response.timeout = 5000 ∧
    attaches (AsyncPing.begin sample_fresh 5 3 5000 100 (send_ok 101)).effects
      = [(TickerId._timer, 1000, Handler._s_timer)] ∧
    attaches (AsyncPing.step (AsyncPing.begin sample_fresh 5 3 5000 100 (send_ok 101)).state
      (Event.fire_timer (send_ok 5100))).effects
      = [(TickerId._timer, 1000, Handler._s_timer)] := by
  refine ⟨?_, AsyncPing.send_packet_attaches s env, by decide, by decide, by decide, by decide⟩
  by_cases h : count.val = 0 ∨ s.count_down ≠ 0
  · rw [AsyncPing.begin_rejected s addr count t1 now env h,
      AsyncPing.begin_rejected s addr count t2 now env h]
  · push_neg at h
    rw [AsyncPing.begin_accepted s addr count t1 now env h.1 h.2,
      AsyncPing.begin_accepted s addr count t2 now env h.1 h.2]
    have e1 := AsyncPing.send_packet_effects_ignore_timeout
      (AsyncPing.armed s addr count t1 now) env (u32 t2)
    have e2 : ({ AsyncPing.armed s addr count t1 now with
        _response := { (AsyncPing.armed s addr count t1 now)._response with timeout := u32 t2 } }
        : AsyncPing) = AsyncPing.armed s addr count t2 now := rfl
    rw [e2] at e1
    show _ ++ _ = _ ++ _
    rw [e1]

/-! ## Which timer an accepted reply arms -/

/-- C15: on the sample object with a per-probe callback registered and probe 1 in
flight, accepting the reply leaves `_timer_recv` detached and attaches the
settling handler `_s_timer_recv` to the deadline timer `_timer` (the only
`attach` made); after the handler has run `_timer` still holds `_s_timer_recv`,
so its next fire runs the settling handler again, not `timer()`: no probe is
sent, nothing is finalised, and a fire of `_timer_recv` does nothing. -/
theorem accepted_reply_replaces_deadline_handler :
    (AsyncPing.run sample_fresh (responsive_start never_cancel)).state._timer_recv = none ∧
    (AsyncPing.run sample_fresh (responsive_start never_cancel)).state._timer
      = some Handler._s_timer_recv ∧
    attaches (AsyncPing.step
        (AsyncPing.run sample_fresh ((responsive_start never_cancel).take 3)).state
        (Event.recv (echo_reply 7 1) 110 (some 5))).effects
      = [(TickerId._timer, 1000, Handler._s_timer_recv)] ∧
    (AsyncPing.run sample_fresh ((responsive_start never_cancel).take 3)).state._timer
      = some Handler._s_timer ∧
    (AsyncPing.run sample_fresh
      (responsive_start never_cancel ++ [Event.fire_timer (send_ok 1100)])).state._timer
      = some Handler._s_timer_recv ∧
    packets_sent (AsyncPing.run
      (AsyncPing.run sample_fresh (responsive_start never_cancel)).state
      [Event.fire_timer (send_ok 1100), Event.fire_timer (send_ok 2100)]).effects = [] ∧
    completions (AsyncPing.run
      (AsyncPing.run sample_fresh (responsive_start never_cancel)).state
      [Event.fire_timer (send_ok 1100), Event.fire_timer (send_ok 2100)]).effects = [] ∧
    (AsyncPing.run
      (AsyncPing.run sample_fresh (responsive_start never_cancel)).state
      [Event.fire_timer (send_ok 1100), Event.fire_timer (send_ok 2100)]).state._response.total_sent
      = 1 ∧
    (AsyncPing.step (AsyncPing.run sample_fresh (responsive_start never_cancel)).state
      (Event.fire_timer_recv (send_ok 1100))).effects = [] := by
  decide

/-! ## A probe sent without a packet buffer -/

namespace AsyncPing

/-- A return value of 0 means the acceptance test failed. -/
theorem ping_recv_ret_zero (s : AsyncPing) (p : InPacket) (now : Nat) (arp : Option Nat)
    (h : (ping_recv s p now arp).ret = 0) : (p.hdr_ok && matches_probe s p) = false := by
  cases hm : (p.hdr_ok && matches_probe s p) with
  | false => rfl
  | true =>
    rw [ping_recv_ret_accepted s p now arp hm] at h
    cases h

/-- Packets that are all rejected leave the object as it is and invoke nothing. -/
theorem rejected_deliveries (ds : List Delivery) (s : AsyncPing)
    (h : ∀ d ∈ ds, (ping_recv s d.p d.now d.arp).ret = 0) :
    (run s (ds.map Delivery.event)).state = s ∧
    probe_reports (run s (ds.map Delivery.event)).effects = [] ∧
    completions (run s (ds.map Delivery.event)).effects = [] ∧
    packets_sent (run s (ds.map Delivery.event)).effects = [] := by
  induction ds with
  | nil => exact ⟨rfl, rfl, rfl, rfl⟩
  | cons d rest ih =>
    have hd := ping_recv_ret_zero s d.p d.now d.arp (h d (List.mem_cons_self d rest))
    have st : (step s d.event).state = s ∧
        ((step s d.event).effects = [] ∨
          (step s d.event).effects = [Effect.pbuf_header_restore]) := by
      show (step s (Event.recv d.p d.now d.arp)).state = s ∧
        ((step s (Event.recv d.p d.now d.arp)).effects = [] ∨
          (step s (Event.recv d.p d.now d.arp)).effects = [Effect.pbuf_header_restore])
      cases hp : s.ping_pcb with
      | false => simp [step, hp]
      | true => simp [step, hp, ping_recv_rejected s d.p d.now d.arp hd]
    obtain ⟨i1, i2, i3, i4⟩ := ih (fun e he => h e (List.mem_cons_of_mem d he))
    rw [List.map_cons, run_cons, st.1]
    refine ⟨i1, ?_, ?_, ?_⟩
    · show probe_reports ((step s d.event).effects ++ _) = []
      rw [probe_reports_append, i2]
      rcases st.2 with e | e <;> rw [e] <;> rfl
    · show completions ((step s d.event).effects ++ _) = []
      rw [completions_append, i3]
      rcases st.2 with e | e <;> rw [e] <;> rfl
    · show packets_sent ((step s d.event).effects ++ _) = []
      rw [packets_sent_append, i4]
      rcases st.2 with e | e <;> rw [e] <;> rfl

/-- The per-probe callback invocations of `timer` are those of its report. -/
theorem timer_reports (s : AsyncPing) (env : SendEnv) :
    probe_reports (timer s env).effects = probe_reports (report_effects s) := by
  by_cases hk : (after_report s).count_down = 0
  · rw [timer_finalises s env hk]
    have c : probe_reports (completion_effects (finalised s env)) = [] := by
      unfold completion_effects
      cases (finalised s env)._on_sent <;> rfl
    have d : probe_reports (done (finalised s env)).effects = [] := by
      unfold done
      cases (finalised s env).ping_pcb <;> rfl
    simp only [List.cons_append, List.nil_append, probe_reports_detach, probe_reports_append,
      c, d, List.append_nil]
  · rw [timer_sends s env hk]
    simp only [List.cons_append, List.nil_append, probe_reports_detach, probe_reports_append,
      (send_packet_no_callbacks (after_report s) env).1, List.append_nil]

/-- What `send_packet` does when no packet buffer can be obtained. -/
theorem send_packet_without_buffer (s : AsyncPing) (env : SendEnv) (h : env.alloc = Alloc.null) :
    (send_packet s env).effects =
      [Effect.detach TickerId._timer, Effect.attach TickerId._timer 1000 Handler._s_timer] ∧
    (send_packet s env).state._response.icmp_seq = s._response.icmp_seq ∧
    (send_packet s env).state.ping_start = s.ping_start := by
  rcases env with ⟨a, n⟩
  simp only at h
  subst h
  simp [send_packet, ping_send]

end AsyncPing

/-- C17 (as the code has it): when `send_packet` cannot obtain a packet buffer, no packet
is handed to the raw transport, the deadline timer is armed all the same, the
probe is counted and the session goes on (handle kept, no completion); and if
a per-probe callback is registered and none of the packets delivered before
the deadline fire is accepted by `ping_recv`, those packets change nothing and
the fire reports the probe through the per-probe callback with `answer = false`. -/
theorem unbuffered_probe_reported_lost (s : AsyncPing) (env env2 : SendEnv)
    (f : THandlerFunction) (ds : List Delivery)
    (ha : env.alloc = Alloc.null) (hf : s._on_recv = some f)
    (hds : ∀ d ∈ ds,
      (AsyncPing.ping_recv (AsyncPing.send_packet s env).state d.p d.now d.arp).ret = 0) :
    packets_sent (AsyncPing.send_packet s env).effects = [] ∧
    attaches (AsyncPing.send_packet s env).effects
      = [(TickerId._timer, 1000, Handler._s_timer)] ∧
    (AsyncPing.send_packet s env).state._timer = some Handler._s_timer ∧
    (AsyncPing.send_packet s env).state._response.total_sent = u32 (s._response.total_sent + 1) ∧
    (AsyncPing.send_packet s env).state.ping_pcb = s.ping_pcb ∧
    completions (AsyncPing.send_packet s env).effects = [] ∧
    Effect.raw_remove ∉ (AsyncPing.send_packet s env).effects ∧
    (AsyncPing.run (AsyncPing.send_packet s env).state (ds.map Delivery.event)).state
      = (AsyncPing.send_packet s env).state ∧
    probe_reports (AsyncPing.run (AsyncPing.send_packet s env).state
      (ds.map Delivery.event)).effects = [] ∧
    (∃ r, probe_reports (AsyncPing.step
        (AsyncPing.run (AsyncPing.send_packet s env).state (ds.map Delivery.event)).state
        (Event.fire_timer env2)).effects = [r] ∧ r.answer = false ∧
      r.total_sent = u32 (s._response.total_sent + 1)) := by
  obtain ⟨p1, p2, _, _, _, _, p7, _, p9, _, p11, _, _⟩ := AsyncPing.send_packet_fields s env
  obtain ⟨e1, _, _⟩ := AsyncPing.send_packet_without_buffer s env ha
  obtain ⟨d1, d2, _, _⟩ := AsyncPing.rejected_deliveries ds (AsyncPing.send_packet s env).state hds
  refine ⟨?_, AsyncPing.send_packet_attaches s env, p7, p2, p11,
    (AsyncPing.send_packet_no_callbacks s env).2, ?_, d1, d2, ?_⟩
  · rw [e1]; rfl
  · rw [e1]; decide
  · refine ⟨(AsyncPing.send_packet s env).state._response, ?_, p1, p2⟩
    rw [d1]
    have st : AsyncPing.step (AsyncPing.send_packet s env).state (Event.fire_timer env2)
        = AsyncPing.timer (AsyncPing.send_packet s env).state env2 := by
      simp [AsyncPing.step, p7, AsyncPing.run_handler]
    rw [st, AsyncPing.timer_reports]
    unfold AsyncPing.report_effects
    rw [p1, p9, hf]
    rfl

/-- C17 witness: probe 2 of the sample session finds no buffer, two stray packets
arrive, and the deadline fire reports the probe as lost. -/
theorem unbuffered_probe_reported_lost_witness :
    (send_null 1100).alloc = Alloc.null ∧
    (AsyncPing.begin sample_registered 5 3 1000 100 (send_ok 101)).state._on_recv
      = some never_cancel ∧
    (∃ r, probe_reports (AsyncPing.step
        (AsyncPing.run (AsyncPing.send_packet
          (AsyncPing.begin sample_registered 5 3 1000 100 (send_ok 101)).state
          (send_null 1100)).state (stray_deliveries.map Delivery.event)).state
        (Event.fire_timer (send_ok 2100))).effects = [r] ∧ r.answer = false ∧
      r.total_sent = u32 ((AsyncPing.begin sample_registered 5 3 1000 100
        (send_ok 101)).state._response.total_sent + 1)) :=
  ⟨rfl, rfl,
   (unbuffered_probe_reported_lost
      (AsyncPing.begin sample_registered 5 3 1000 100 (send_ok 101)).state
      (send_null 1100) (send_ok 2100) never_cancel stray_deliveries rfl rfl
      (by decide)).2.2.2.2.2.2.2.2.2⟩

/-- C17 counterexample: probe 2 of the sample session finds no buffer, so `icmp_seq`
stays 1; the late reply to probe 1 is accepted in between, and the next timer
fire reports the probe with `answer = true`, not as a loss. -/
theorem unbuffered_probe_answered_by_stale_reply :
    packets_sent (AsyncPing.step
      (AsyncPing.run sample_registered (stale_reply_events.take 1)).state
      (Event.fire_timer (send_null 1100))).effects = [] ∧
    (AsyncPing.run sample_registered (stale_reply_events.take 2)).state._response.total_sent
      = 2 ∧
    (AsyncPing.ping_recv (AsyncPing.run sample_registered (stale_reply_events.take 2)).state
      (echo_reply 7 1) 1200 none).ret = 1 ∧
    (AsyncPing.run sample_registered (stale_reply_events.take 3)).state._response.answer
      = true ∧
    (probe_reports (AsyncPing.step
      (AsyncPing.run sample_registered (stale_reply_events.take 3)).state
      (Event.fire_timer (send_ok 2100))).effects).map (fun r => r.answer) = [true] ∧
    ¬ (∀ r ∈ probe_reports (AsyncPing.step
      (AsyncPing.run sample_registered (stale_reply_events.take 3)).state
      (Event.fire_timer (send_ok 2100))).effects, r.answer = false) := by
  refine ⟨by decide, by decide, by decide, by decide, by decide, ?_⟩
  intro h
  have c := h _ (List.mem_of_mem_head? (a := { zero_response with
    total_sent := 2, total_recv := 1, size := 64, time := 1099, icmp_seq := 1, ttl := 64,
    addr := 5, answer := true, timeout := 1000 }) (by decide))
  cases c

/-! ## The link-address lookup -/

namespace AsyncPing

theorem lookups_append (a b : List Effect) : lookups (a ++ b) = lookups a ++ lookups b := by
  induction a with
  | nil => rfl
  | cons e rest ih => cases e <;> simp [lookups, ih]

theorem lookups_detach (t : TickerId) (l : List Effect) :
    lookups (Effect.detach t :: l) = lookups l := rfl

/-- The function `send_packet` triggers no lookup. -/
theorem send_packet_no_lookup (s : AsyncPing) (env : SendEnv) :
    lookups (send_packet s env).effects = [] := by
  rcases env with ⟨a, n⟩
  cases a <;> simp [send_packet, ping_send, ping_prepare_echo, lookups]

/-- A handler triggers no lookup and leaves the cached link address alone. -/
theorem handler_no_lookup (s : AsyncPing) (h : Handler) (env : SendEnv) :
    lookups (run_handler s h env).effects = [] ∧
    (run_handler s h env).state._response.mac = s._response.mac := by
  cases h with
  | _s_timer =>
    show lookups (timer s env).effects = [] ∧ (timer s env).state._response.mac = s._response.mac
    obtain ⟨a1, _, _, _, _, _, _, _⟩ := after_report_fields s
    have r : lookups (report_effects s) = [] := by
      unfold report_effects
      cases s._response.answer <;> cases s._on_recv <;> rfl
    by_cases hk : (after_report s).count_down = 0
    · rw [timer_finalises s env hk]
      obtain ⟨d1, _, _, _, _, _, _, _, _, _, _, _⟩ := done_finalised_fields s env
      have c : lookups (completion_effects (finalised s env)) = [] := by
        unfold completion_effects
        cases (finalised s env)._on_sent <;> rfl
      have d : lookups (done (finalised s env)).effects = [] := by
        unfold done
        cases (finalised s env).ping_pcb <;> rfl
      constructor
      · simp only [List.cons_append, List.nil_append, lookups_detach, lookups_append, r, c, d,
          List.append_nil]
      · show (done (finalised s env)).state._response.mac = s._response.mac
        rw [d1]
    · rw [timer_sends s env hk]
      obtain ⟨_, _, _, _, b5, _, _, _, _, _, _, _, _⟩ := send_packet_fields (after_report s) env
      constructor
      · simp only [List.cons_append, List.nil_append, lookups_detach, lookups_append, r,
          send_packet_no_lookup, List.append_nil]
      · show (send_packet (after_report s) env).state._response.mac = s._response.mac
        rw [b5, a1]
  | _s_timer_recv =>
    show lookups (_s_timer_recv s).effects = [] ∧
      (_s_timer_recv s).state._response.mac = s._response.mac
    obtain ⟨a1, _, _, _, _, _, _, _, _, _⟩ := s_timer_recv_fields s
    constructor
    · unfold _s_timer_recv
      cases s._on_recv <;> rfl
    · rw [a1]

/-- What an accepted reply does about the link address. -/
theorem ping_recv_accepted_mac (s : AsyncPing) (p : InPacket) (now : Nat) (arp : Option Nat)
    (h : (p.hdr_ok && matches_probe s p) = true) :
    (s._response.mac = none →
      lookups (ping_recv s p now arp).effects = [p.src] ∧
      (ping_recv s p now arp).state._response.mac = arp) ∧
    (∀ m, s._response.mac = some m →
      lookups (ping_recv s p now arp).effects = [] ∧
      (ping_recv s p now arp).state._response.mac = some m) := by
  unfold ping_recv
  constructor
  · intro hm
    cases hf : s._on_recv <;> simp [h, hm, hf, lookups]
  · intro m hm
    cases hf : s._on_recv <;> simp [h, hm, hf, lookups]

/-- An event other than `begin` keeps a cached link address and triggers no lookup. -/
theorem cached_step (s : AsyncPing) (ev : Event) (m : Nat) (hnb : ev.is_begin = false)
    (hm : s._response.mac = some m) :
    (step s ev).state._response.mac = some m ∧ lookups (step s ev).effects = [] := by
  cases ev with
  | begin addr count timeout now env => cases hnb
  | begin_host resolved count timeout now env => cases hnb
  | set_on mode fn => cases mode <;> exact ⟨hm, rfl⟩
  | cancel => exact ⟨hm, rfl⟩
  | recv p now arp =>
    cases hp : s.ping_pcb with
    | false =>
      have e : step s (Event.recv p now arp) = { state := s, effects := [] } := by
        simp [step, hp]
      rw [e]; exact ⟨hm, rfl⟩
    | true =>
      have e : step s (Event.recv p now arp) =
          { state := (ping_recv s p now arp).state, effects := (ping_recv s p now arp).effects } := by
        simp [step, hp]
      rw [e]
      cases hacc : (p.hdr_ok && matches_probe s p) with
      | false =>
        rw [ping_recv_rejected s p now arp hacc]
        exact ⟨hm, rfl⟩
      | true =>
        obtain ⟨k1, k2⟩ := (ping_recv_accepted_mac s p now arp hacc).2 m hm
        exact ⟨k2, k1⟩
  | fire_timer env =>
    cases ht : s._timer with
    | none =>
      have e : step s (Event.fire_timer env) = { state := s, effects := [] } := by
        simp [step, ht]
      rw [e]; exact ⟨hm, rfl⟩
    | some h =>
      have e : step s (Event.fire_timer env) = run_handler s h env := by
        simp [step, ht]
      rw [e]
      obtain ⟨k1, k2⟩ := handler_no_lookup s h env
      exact ⟨by rw [k2, hm], k1⟩
  | fire_timer_recv env =>
    cases ht : s._timer_recv with
    | none =>
      have e : step s (Event.fire_timer_recv env) = { state := s, effects := [] } := by
        simp [step, ht]
      rw [e]; exact ⟨hm, rfl⟩
    | some h =>
      have e : step s (Event.fire_timer_recv env) = run_handler s h env := by
        simp [step, ht]
      rw [e]
      obtain ⟨k1, k2⟩ := handler_no_lookup s h env
      exact ⟨by rw [k2, hm], k1⟩

/-- A run without `begin` keeps a cached link address and triggers no lookup. -/
theorem cached_run (evs : List Event) (s : AsyncPing) (m : Nat)
    (hnb : ∀ ev ∈ evs, ev.is_begin = false) (hm : s._response.mac = some m) :
    (run s evs).state._response.mac = some m ∧ lookups (run s evs).effects = [] := by
  induction evs generalizing s with
  | nil => exact ⟨hm, rfl⟩
  | cons ev rest ih =>
    obtain ⟨k1, k2⟩ := cached_step s ev m (hnb ev (List.mem_cons_self ev rest)) hm
    obtain ⟨i1, i2⟩ := ih (step s ev).state (fun e he => hnb e (List.mem_cons_of_mem ev he)) k1
    rw [run_cons]
    refine ⟨i1, ?_⟩
    show lookups ((step s ev).effects ++ (run (step s ev).state rest).effects) = []
    rw [lookups_append, k2, i2]
    rfl

/-- Neither overload of `begin` triggers a lookup. -/
theorem begin_no_lookup (s : AsyncPing) (addr : Nat) (count : Fin 256) (timeout now : Nat)
    (env : SendEnv) : lookups (begin s addr count timeout now env).effects = [] := by
  by_cases h : count.val = 0 ∨ s.count_down ≠ 0
  · rw [begin_rejected s addr count timeout now env h]
    rfl
  · push_neg at h
    rw [begin_accepted s addr count timeout now env h.1 h.2]
    show lookups (open_effects s
      ++ (send_packet (armed s addr count timeout now) env).effects) = []
    rw [lookups_append, send_packet_no_lookup]
    unfold open_effects
    cases s.ping_pcb <;> rfl

/-- An event triggers a lookup only if it is a packet accepted by `ping_recv` while
the cached link address is unset; it then triggers exactly one. -/
theorem step_lookups (s : AsyncPing) (ev : Event) :
    lookups (step s ev).effects = [] ∨
    ∃ p now arp, ev = Event.recv p now arp ∧ s.ping_pcb = true ∧
      (ping_recv s p now arp).ret = 1 ∧ s._response.mac = none ∧
      lookups (step s ev).effects = [p.src] := by
  cases ev with
  | begin addr count timeout now env =>
    rw [step_begin]
    exact Or.inl (begin_no_lookup s addr count timeout now env)
  | begin_host resolved count timeout now env =>
    cases resolved with
    | none => exact Or.inl rfl
    | some ip =>
      rw [step_begin_host_some, step_begin]
      exact Or.inl (begin_no_lookup s ip count timeout now env)
  | set_on mode fn => exact Or.inl rfl
  | cancel => exact Or.inl rfl
  | recv p now arp =>
    cases hp : s.ping_pcb with
    | false =>
      have e : step s (Event.recv p now arp) = { state := s, effects := [] } := by
        simp [step, hp]
      rw [e]; exact Or.inl rfl
    | true =>
      have e : step s (Event.recv p now arp) =
          { state := (ping_recv s p now arp).state, effects := (ping_recv s p now arp).effects } := by
        simp [step, hp]
      rw [e]
      cases hacc : (p.hdr_ok && matches_probe s p) with
      | false =>
        rw [ping_recv_rejected s p now arp hacc]
        exact Or.inl rfl
      | true =>
        cases hm : s._response.mac with
        | some m => exact Or.inl ((ping_recv_accepted_mac s p now arp hacc).2 m hm).1
        | none =>
          exact Or.inr ⟨p, now, arp, rfl, rfl, ping_recv_ret_accepted s p now arp hacc, rfl,
            ((ping_recv_accepted_mac s p now arp hacc).1 hm).1⟩
  | fire_timer env =>
    cases ht : s._timer with
    | none =>
      have e : step s (Event.fire_timer env) = { state := s, effects := [] } := by
        simp [step, ht]
      rw [e]; exact Or.inl rfl
    | some h =>
      have e : step s (Event.fire_timer env) = run_handler s h env := by
        simp [step, ht]
      rw [e]
      exact Or.inl (handler_no_lookup s h env).1
  | fire_timer_recv env =>
    cases ht : s._timer_recv with
    | none =>
      have e : step s (Event.fire_timer_recv env) = { state := s, effects := [] } := by
        simp [step, ht]
      rw [e]; exact Or.inl rfl
    | some h =>
      have e : step s (Event.fire_timer_recv env) = run_handler s h env := by
        simp [step, ht]
      rw [e]
      exact Or.inl (handler_no_lookup s h env).1

/-- An event that is not an accepted reply triggers no lookup. -/
theorem unanswered_step (s : AsyncPing) (ev : Event) (h : Unanswered s ev) :
    lookups (step s ev).effects = [] := by
  rcases step_lookups s ev with k | ⟨p, now, arp, he, hp, hret, _, _⟩
  · exact k
  · subst he
    have z : (ping_recv s p now arp).ret = 0 := h hp
    rw [z] at hret
    cases hret

/-- A run without an accepted reply triggers no lookup. -/
theorem unanswered_run (evs : List Event) (s : AsyncPing) (h : UnansweredRun s evs) :
    lookups (run s evs).effects = [] := by
  induction evs generalizing s with
  | nil => rfl
  | cons ev rest ih =>
    rw [run_cons]
    show lookups ((step s ev).effects ++ (run (step s ev).state rest).effects) = []
    rw [lookups_append, unanswered_step s ev h.1, ih (step s ev).state h.2]
    rfl

end AsyncPing

/-- C18 (as the code has it): `begin` clears the cached link address and triggers no
lookup; an accepted reply triggers the lookup exactly when the cached address
is still unset, and caches whatever the lookup yields (nothing, if it finds no
entry, so that the next accepted reply looks up again); once an address is
cached, no event of the session other than a new `begin` changes it or
triggers a lookup; no event other than an accepted reply triggers a lookup,
so a session with no accepted reply triggers none. -/
theorem link_lookup_while_unresolved (s : AsyncPing) :
    (∀ addr count timeout now env, (AsyncPing.begin s addr count timeout now env).ret = true →
      (AsyncPing.begin s addr count timeout now env).state._response.mac = none ∧
      lookups (AsyncPing.begin s addr count timeout now env).effects = []) ∧
    (∀ p now arp, (AsyncPing.ping_recv s p now arp).ret = 1 → s._response.mac = none →
      lookups (AsyncPing.ping_recv s p now arp).effects = [p.src] ∧
      (AsyncPing.ping_recv s p now arp).state._response.mac = arp) ∧
    (∀ p now arp m, (AsyncPing.ping_recv s p now arp).ret = 1 → s._response.mac = some m →
      lookups (AsyncPing.ping_recv s p now arp).effects = [] ∧
      (AsyncPing.ping_recv s p now arp).state._response.mac = some m) ∧
    (∀ evs m, (∀ ev ∈ evs, ev.is_begin = false) → s._response.mac = some m →
      (AsyncPing.run s evs).state._response.mac = some m ∧
      lookups (AsyncPing.run s evs).effects = []) ∧
    (∀ ev, lookups (AsyncPing.step s ev).effects ≠ [] →
      ∃ p now arp, ev = Event.recv p now arp ∧ s.ping_pcb = true ∧
        (AsyncPing.ping_recv s p now arp).ret = 1 ∧ s._response.mac = none ∧
        lookups (AsyncPing.step s ev).effects = [p.src]) ∧
    (∀ evs, AsyncPing.UnansweredRun s evs → lookups (AsyncPing.run s evs).effects = []) ∧
    (∀ addr count timeout now env evs,
      AsyncPing.UnansweredRun (AsyncPing.begin s addr count timeout now env).state evs →
      lookups ((AsyncPing.begin s addr count timeout now env).effects
        ++ (AsyncPing.run (AsyncPing.begin s addr count timeout now env).state evs).effects)
        = []) := by
  refine ⟨?_, ?_, ?_, ?_, ?_, ?_, ?_⟩
  · intro addr count timeout now env hb
    rw [AsyncPing.begin_ret_true_iff] at hb
    rw [AsyncPing.begin_accepted s addr count timeout now env hb.1 hb.2]
    obtain ⟨_, _, _, _, b5, _, _, _, _, _, _, _, _⟩ :=
      AsyncPing.send_packet_fields (AsyncPing.armed s addr count timeout now) env
    constructor
    · show (AsyncPing.send_packet (AsyncPing.armed s addr count timeout now) env).state._response.mac
        = none
      rw [b5]; rfl
    · show lookups (AsyncPing.open_effects s
        ++ (AsyncPing.send_packet (AsyncPing.armed s addr count timeout now) env).effects) = []
      rw [AsyncPing.lookups_append, AsyncPing.send_packet_no_lookup]
      unfold AsyncPing.open_effects
      cases s.ping_pcb <;> rfl
  · intro p now arp hr hm
    exact (AsyncPing.ping_recv_accepted_mac s p now arp
      (AsyncPing.ping_recv_ret_one s p now arp hr)).1 hm
  · intro p now arp m hr hm
    exact (AsyncPing.ping_recv_accepted_mac s p now arp
      (AsyncPing.ping_recv_ret_one s p now arp hr)).2 m hm
  · intro evs m hnb hm
    exact AsyncPing.cached_run evs s m hnb hm
  · intro ev hne
    rcases AsyncPing.step_lookups s ev with k | k
    · exact absurd k hne
    · exact k
  · intro evs hu
    exact AsyncPing.unanswered_run evs s hu
  · intro addr count timeout now env evs hu
    rw [AsyncPing.lookups_append, AsyncPing.begin_no_lookup, AsyncPing.unanswered_run evs _ hu]
    rfl

/-- C18 witness: the reply to probe 1 of the sample session triggers one lookup, which
finds entry 5; the sample session with no accepted reply triggers none. -/
theorem link_lookup_while_unresolved_witness :
    (AsyncPing.ping_recv first_probe_in_flight (echo_reply 7 1) 110 (some 5)).ret = 1 ∧
    first_probe_in_flight._response.mac = none ∧
    (lookups (AsyncPing.ping_recv first_probe_in_flight (echo_reply 7 1) 110 (some 5)).effects
      = [(echo_reply 7 1).src] ∧
    (AsyncPing.ping_recv first_probe_in_flight
      (echo_reply 7 1) 110 (some 5)).state._response.mac = some 5) ∧
    AsyncPing.UnansweredRun
      (AsyncPing.begin sample_registered 5 3 1000 100 (send_ok 101)).state silent_events ∧
    lookups ((AsyncPing.begin sample_registered 5 3 1000 100 (send_ok 101)).effects
      ++ (AsyncPing.run (AsyncPing.begin sample_registered 5 3 1000 100 (send_ok 101)).state
        silent_events).effects) = [] :=
  ⟨by decide, rfl,
   (link_lookup_while_unresolved first_probe_in_flight).2.1 (echo_reply 7 1) 110 (some 5)
     (by decide) rfl,
   ⟨trivial, (fun _ => by decide), trivial, trivial, trivial⟩,
   (link_lookup_while_unresolved sample_registered).2.2.2.2.2.2 5 3 1000 100 (send_ok 101)
     silent_events ⟨trivial, (fun _ => by decide), trivial, trivial, trivial⟩⟩

/-- C18 counterexample: in the sample session of three probes the replies to probes 1
and 2 are each accepted while the lookup finds no entry, and the lookup is
triggered twice in the one session. -/
theorem link_lookup_repeated_in_one_session :
    lookups (AsyncPing.run sample_fresh single_reply_events).effects = [99, 99] ∧
    ¬ ((lookups (AsyncPing.run sample_fresh single_reply_events).effects).length = 1) ∧
    (completions (AsyncPing.run sample_fresh single_reply_events).effects).length = 0 ∧
    (AsyncPing.run sample_fresh single_reply_events).state.ping_pcb = false := by
  decide
